import Mathlib

set_option maxHeartbeats 1000000
set_option linter.unusedVariables false

/-!
Shallow embedding of the garden-planner plant-placement engine.

The repository ships two revisions of the `PlantPlacer` class:
`src/placement.js` (the standalone module, embedded below in the
`Placement` namespace) and `src/unnamed/part_000` (the revision bundled
with the application, embedded in the `Part0` namespace).  They differ in
how the grid and hexagonal lattices are anchored (centered vs. top-left)
and `part_000` additionally carries the region/layer machinery.  The
region-bounds lookup of the application object (`src/unnamed/part_002`,
`getRegionBounds`) is embedded in the `App` namespace.

Number model: JavaScript floats are modelled as real numbers.  Loop bounds
of the form `for (i = 0; i < n; i++)` with `n = Math.floor(e)` become
`List.range (⌊e⌋.toNat)`: for non-positive or NaN bounds the JS loop runs
zero iterations, exactly as `Int.toNat` clamps.  The single place where
real semantics and JS floats genuinely part ways is division by a zero
`spacing`, where JS produces an Infinity loop bound, i.e. a loop that
never terminates; the `...Run` wrappers below make that case explicit by
returning `none`.

`Array.prototype.slice(0, e)` is modelled by `jsSlice`: a non-negative end
index takes a prefix, a negative end index counts from the end of the
array (JS semantics), in both cases clamped to the array's length.
-/

/-- A 2D point `{x, y}`, origin at the bed center. -/
structure Point where
  x : ℝ
  y : ℝ

/-- The packing pattern selector (the JS strings `'grid'` / `'hexagonal'`). -/
inductive Pattern where
  | grid
  | hexagonal
deriving DecidableEq

/-- The fill-method selector (the JS strings `'auto'`, `'count'`, `'rows'`,
`'percentage'`). -/
inductive Method where
  | auto
  | count
  | rows
  | percentage
deriving DecidableEq

/-- A plant group / layer as the placement code reads it: its spacing and its
already-computed positions (a JS object with a missing `positions` field is
modelled by the empty list, which the code treats identically). -/
structure PlantGroup where
  spacing : ℝ
  positions : List Point

/-- JS `array.slice(0, e)` for an integer end index `e`: a prefix for
`e ≥ 0`, and for `e < 0` the prefix of length `length + e` (JS counts a
negative index from the end), clamped to the array in both cases. -/
def jsSlice {α : Type} (l : List α) (e : ℤ) : List α :=
  if e < 0 then l.take ((l.length : ℤ) + e).toNat else l.take e.toNat

namespace Part0

/-- `gridPattern` of `src/unnamed/part_000` (lines 38–57): row/column counts
`Math.floor(dimension / spacing)`, lattice anchored at the top-left corner
(`startX/startY = -dim/2 + spacing/2`), emitted row-major. -/
noncomputable def gridPattern (width height spacing : ℝ) : List Point :=
  let cols : ℤ := ⌊width / spacing⌋
  let rows : ℤ := ⌊height / spacing⌋
  let startX := -width / 2 + spacing / 2
  let startY := -height / 2 + spacing / 2
  (List.range rows.toNat).flatMap fun (row : ℕ) =>
    (List.range cols.toNat).map fun (col : ℕ) =>
      ⟨startX + (col : ℝ) * spacing, startY + (row : ℝ) * spacing⟩

/-- `gridPattern` of `part_000` with the JS divide-by-zero loop bound made
explicit: for `spacing = 0` and `height > 0` the JS row bound is
`Math.floor(height / 0) = Infinity` and the row loop never terminates
(`none`); in every other case the loop bounds agree with the total
function above. -/
noncomputable def gridPatternRun (width height spacing : ℝ) : Option (List Point) :=
  if spacing = 0 ∧ 0 < height then none else some (gridPattern width height spacing)

/-- `hexagonalPattern` of `src/unnamed/part_000` (lines 62–89): row pitch
`spacing·√3/2`, odd rows shifted by `spacing/2`, per-row column count
`Math.floor((width - spacing/2 - offset) / spacing)`, anchored top-left. -/
noncomputable def hexagonalPattern (width height spacing : ℝ) : List Point :=
  let verticalSpacing := spacing * Real.sqrt 3 / 2
  let rows : ℤ := ⌊height / verticalSpacing⌋
  let startY := -height / 2 + spacing / 2
  let startX := -width / 2 + spacing / 2
  (List.range rows.toNat).flatMap fun (row : ℕ) =>
    let y := startY + (row : ℝ) * verticalSpacing
    let offset := ((row % 2 : ℕ) : ℝ) * (spacing / 2)
    let cols : ℤ := ⌊(width - spacing / 2 - offset) / spacing⌋
    (List.range cols.toNat).map fun (col : ℕ) =>
      ⟨startX + (col : ℝ) * spacing + offset, y⟩

/-- `hexagonalPattern` of `part_000` with the JS divide-by-zero loop bound
made explicit, as in `gridPatternRun`: `spacing = 0` makes the row pitch 0,
so for `height > 0` the row bound is `Infinity` and the loop never
terminates. -/
noncomputable def hexagonalPatternRun (width height spacing : ℝ) : Option (List Point) :=
  if spacing = 0 ∧ 0 < height then none else some (hexagonalPattern width height spacing)

/-- `placeInRectangle` of `part_000` (lines 7–12). -/
noncomputable def placeInRectangle (width height spacing : ℝ) (pattern : Pattern) : List Point :=
  if pattern = Pattern.hexagonal then hexagonalPattern width height spacing
  else gridPattern width height spacing

open Classical in
/-- `placeInCircle` of `part_000` (lines 17–33): square lattice over the
bounding box, clipped to `distance ≤ radius - spacing/2`. -/
noncomputable def placeInCircle (radius spacing : ℝ) (pattern : Pattern) : List Point :=
  let diameter := radius * 2
  let positions :=
    if pattern = Pattern.hexagonal then hexagonalPattern diameter diameter spacing
    else gridPattern diameter diameter spacing
  positions.filter fun pos =>
    decide (Real.sqrt (pos.x * pos.x + pos.y * pos.y) ≤ radius - spacing / 2)

/-- `placeSpecificCount` of `part_000` (lines 94–109):
`allPositions.slice(0, Math.min(count, allPositions.length))`. -/
noncomputable def placeSpecificCount (width height spacing : ℝ) (count : ℤ) (pattern : Pattern)
    (isCircle : Bool) (radius : ℝ) : List Point :=
  let allPositions :=
    if isCircle then placeInCircle radius spacing pattern
    else if pattern = Pattern.hexagonal then hexagonalPattern width height spacing
    else gridPattern width height spacing
  jsSlice allPositions (min count (allPositions.length : ℤ))

/-- `placeInRows` of `part_000` (lines 114–155): concentric rings for circles;
for rectangles `numRows` rows at pitch `height / numRows`, each row holding
`Math.floor(width / spacing)` plants (the requested row count is used as-is). -/
noncomputable def placeInRows (width height spacing : ℝ) (numRows : ℤ) (pattern : Pattern)
    (isCircle : Bool) (radius : ℝ) : List Point :=
  if isCircle then
    let ringSpacing := radius / (numRows : ℝ)
    (List.range numRows.toNat).flatMap fun (ring : ℕ) =>
      let ringRadius := ringSpacing * ((ring : ℝ) + 0.5)
      let circumference := 2 * Real.pi * ringRadius
      let plantsInRing : ℤ := ⌊circumference / spacing⌋
      (List.range plantsInRing.toNat).map fun (i : ℕ) =>
        let angle := 2 * Real.pi * (i : ℝ) / (plantsInRing : ℝ)
        ⟨Real.cos angle * ringRadius, Real.sin angle * ringRadius⟩
  else
    let rowSpacing := height / (numRows : ℝ)
    let cols : ℤ := ⌊width / spacing⌋
    let startX := -width / 2 + spacing / 2
    let startY := -height / 2 + rowSpacing / 2
    (List.range numRows.toNat).flatMap fun (row : ℕ) =>
      let y := startY + (row : ℝ) * rowSpacing
      (List.range cols.toNat).map fun (col : ℕ) =>
        ⟨startX + (col : ℝ) * spacing, y⟩

open Classical in
/-- `filterAvailablePositions` of `part_000` (lines 181–218): drop a candidate
whose distance to any already-placed point is below the average of the two
spacings.  (The JS code flattens the groups' positions first; the retained
candidates depend only on the rejection predicate, stated here directly.) -/
noncomputable def filterAvailablePositions (candidatePositions : List Point)
    (existingPlantGroups : List PlantGroup) (newPlantSpacing : ℝ) : List Point :=
  candidatePositions.filter fun candidate =>
    decide (∀ group ∈ existingPlantGroups, ∀ pos ∈ group.positions,
      ¬ (Real.sqrt ((candidate.x - pos.x) ^ 2 + (candidate.y - pos.y) ^ 2) <
          (newPlantSpacing + group.spacing) / 2))

/-- `calculateBedCapacity` of `part_000` (lines 223–235). -/
noncomputable def calculateBedCapacity (width height spacing : ℝ) (pattern : Pattern)
    (isCircle : Bool) (radius : ℝ) : ℕ :=
  (if isCircle then placeInCircle radius spacing pattern
   else if pattern = Pattern.hexagonal then hexagonalPattern width height spacing
   else gridPattern width height spacing).length

/-- `calculateUsedSpace` of `part_000` (lines 240–247): total number of
already-placed positions. -/
def calculateUsedSpace (existingPlantGroups : List PlantGroup) : ℕ :=
  (existingPlantGroups.map fun group => group.positions.length).sum

/-- `placeWithAwareness` of `part_000` (lines 252–318): generate candidates by
method, filter against existing plants, then apply the count/percentage cap
(`auto` instead caps by remaining capacity).  The fill value is an integer. -/
noncomputable def placeWithAwareness (width height spacing : ℝ) (pattern : Pattern)
    (method : Method) (value : ℤ) (isCircle : Bool) (radius : ℝ)
    (existingPlantGroups : List PlantGroup) : List Point :=
  match method with
  | Method.auto =>
    let totalCapacity := calculateBedCapacity width height spacing pattern isCircle radius
    let usedSpace := calculateUsedSpace existingPlantGroups
    let candidatePositions :=
      if isCircle then placeInCircle radius spacing pattern
      else placeInRectangle width height spacing pattern
    let availablePositions := filterAvailablePositions candidatePositions existingPlantGroups spacing
    jsSlice availablePositions (min ((totalCapacity : ℤ) - (usedSpace : ℤ)) (availablePositions.length : ℤ))
  | Method.count =>
    let candidatePositions :=
      if isCircle then placeInCircle radius spacing pattern
      else if pattern = Pattern.hexagonal then hexagonalPattern width height spacing
      else gridPattern width height spacing
    let availablePositions := filterAvailablePositions candidatePositions existingPlantGroups spacing
    jsSlice availablePositions (min value (availablePositions.length : ℤ))
  | Method.rows =>
    let candidatePositions := placeInRows width height spacing value pattern isCircle radius
    filterAvailablePositions candidatePositions existingPlantGroups spacing
  | Method.percentage =>
    let candidatePositions :=
      if isCircle then placeInCircle radius spacing pattern
      else if pattern = Pattern.hexagonal then hexagonalPattern width height spacing
      else gridPattern width height spacing
    let availablePositions := filterAvailablePositions candidatePositions existingPlantGroups spacing
    let count : ℤ := ⌊(candidatePositions.length : ℝ) * ((value : ℝ) / 100)⌋
    jsSlice availablePositions (min count (availablePositions.length : ℤ))

/-- `applyFillMethod` of `part_000` (lines 721–736): `auto` and `rows` keep
all positions, `count` keeps `slice(0, min(value, length))`, `percentage`
keeps `slice(0, Math.floor(length · value/100))`. -/
noncomputable def applyFillMethod (positions : List Point) (method : Method) (value : ℤ) :
    List Point :=
  match method with
  | Method.auto => positions
  | Method.count => jsSlice positions (min value (positions.length : ℤ))
  | Method.percentage => jsSlice positions ⌊(positions.length : ℝ) * ((value : ℝ) / 100)⌋
  | Method.rows => positions

open Classical in
/-- `filterByInterLayerSpacing` of `part_000` (lines 742–784): drop a
candidate whose distance to any point of any previous layer is below the
MAXIMUM of the two spacings.  (The JS code flattens the layers' positions
first; the retained candidates depend only on the rejection predicate,
stated here directly.) -/
noncomputable def filterByInterLayerSpacing (candidatePositions : List Point)
    (newPlantSpacing : ℝ) (previousLayers : List PlantGroup) : List Point :=
  candidatePositions.filter fun candidate =>
    decide (∀ layer ∈ previousLayers, ∀ pos ∈ layer.positions,
      ¬ (Real.sqrt ((candidate.x - pos.x) ^ 2 + (candidate.y - pos.y) ^ 2) <
          max newPlantSpacing layer.spacing))

open Classical in
/-- `generateGridInHorizontalStrip` of `part_000` (lines 480–512): grid
centered within the strip; a row is emitted only under the explicit bound
check `y >= stripTop && y <= stripBottom`.  For the `rows` method the row
count is capped at `value`. -/
noncomputable def generateGridInHorizontalStrip (width stripHeight spacing stripTop stripBottom : ℝ)
    (method : Method) (value : ℤ) : List Point :=
  let cols : ℤ := ⌊width / spacing⌋
  let maxRows : ℤ :=
    if method = Method.rows ∧ 0 < value then min value ⌊stripHeight / spacing⌋
    else ⌊stripHeight / spacing⌋
  let totalRowHeight := ((maxRows : ℝ) - 1) * spacing
  let totalColWidth := ((cols : ℝ) - 1) * spacing
  let startX := -width / 2 + (width - totalColWidth) / 2
  let startY := stripTop + (stripHeight - totalRowHeight) / 2
  (List.range maxRows.toNat).flatMap fun (row : ℕ) =>
    let y := startY + (row : ℝ) * spacing
    if stripTop ≤ y ∧ y ≤ stripBottom then
      (List.range cols.toNat).map fun (col : ℕ) => ⟨startX + (col : ℝ) * spacing, y⟩
    else []

open Classical in
/-- `generateHexInHorizontalStrip` of `part_000` (lines 517–550): hexagonal
rows centered within the strip, emitted only under the bound check
`y >= stripTop && y <= stripBottom`. -/
noncomputable def generateHexInHorizontalStrip (width stripHeight spacing stripTop stripBottom : ℝ)
    (method : Method) (value : ℤ) : List Point :=
  let verticalSpacing := spacing * Real.sqrt 3 / 2
  let maxRows : ℤ :=
    if method = Method.rows ∧ 0 < value then min value ⌊stripHeight / verticalSpacing⌋
    else ⌊stripHeight / verticalSpacing⌋
  let totalRowHeight := ((maxRows : ℝ) - 1) * verticalSpacing
  let baseY := stripTop + (stripHeight - totalRowHeight) / 2
  (List.range maxRows.toNat).flatMap fun (row : ℕ) =>
    let y := baseY + (row : ℝ) * verticalSpacing
    if stripTop ≤ y ∧ y ≤ stripBottom then
      let offset := ((row % 2 : ℕ) : ℝ) * (spacing / 2)
      let availableWidth := width - offset
      let cols : ℤ := ⌊availableWidth / spacing⌋
      let totalColWidth := ((cols : ℝ) - 1) * spacing + offset
      let startX := -width / 2 + (width - totalColWidth) / 2
      (List.range cols.toNat).map fun (col : ℕ) => ⟨startX + (col : ℝ) * spacing + offset, y⟩
    else []

open Classical in
/-- `generateGridInVerticalStrip` of `part_000` (lines 592–625): grid centered
within a vertical strip, columns emitted only under the bound check
`x >= stripLeft && x <= stripRight`; for `rows` the column count is capped. -/
noncomputable def generateGridInVerticalStrip (stripWidth height spacing stripLeft stripRight : ℝ)
    (method : Method) (value : ℤ) : List Point :=
  let maxCols : ℤ :=
    if method = Method.rows ∧ 0 < value then min value ⌊stripWidth / spacing⌋
    else ⌊stripWidth / spacing⌋
  let rows : ℤ := ⌊height / spacing⌋
  let totalColWidth := ((maxCols : ℝ) - 1) * spacing
  let totalRowHeight := ((rows : ℝ) - 1) * spacing
  let startX := stripLeft + (stripWidth - totalColWidth) / 2
  let startY := -height / 2 + (height - totalRowHeight) / 2
  (List.range maxCols.toNat).flatMap fun (col : ℕ) =>
    let x := startX + (col : ℝ) * spacing
    if stripLeft ≤ x ∧ x ≤ stripRight then
      (List.range rows.toNat).map fun (row : ℕ) => ⟨x, startY + (row : ℝ) * spacing⟩
    else []

open Classical in
/-- `generateHexInVerticalStrip` of `part_000` (lines 630–663): hexagonal rows
spanning the bed height, each row centered within the strip, each point
emitted only under the bound check `x >= stripLeft && x <= stripRight`; for
`rows` only the first row's column count is capped. -/
noncomputable def generateHexInVerticalStrip (stripWidth height spacing stripLeft stripRight : ℝ)
    (method : Method) (value : ℤ) : List Point :=
  let verticalSpacing := spacing * Real.sqrt 3 / 2
  let rows : ℤ := ⌊height / verticalSpacing⌋
  let totalRowHeight := ((rows : ℝ) - 1) * verticalSpacing
  let baseY := -height / 2 + (height - totalRowHeight) / 2
  (List.range rows.toNat).flatMap fun (row : ℕ) =>
    let y := baseY + (row : ℝ) * verticalSpacing
    let offset := ((row % 2 : ℕ) : ℝ) * (spacing / 2)
    let availableWidth := stripWidth - offset
    let maxCols : ℤ :=
      if method = Method.rows ∧ 0 < value ∧ row = 0 then min value ⌊availableWidth / spacing⌋
      else ⌊availableWidth / spacing⌋
    let totalColWidth := ((maxCols : ℝ) - 1) * spacing + offset
    let startX := stripLeft + (stripWidth - totalColWidth) / 2
    (List.range maxCols.toNat).flatMap fun (col : ℕ) =>
      let x := startX + (col : ℝ) * spacing + offset
      if stripLeft ≤ x ∧ x ≤ stripRight then [(⟨x, y⟩ : Point)] else []

/-- `placeInHorizontalRegion` of `part_000` (lines 352–362): try both
patterns confined to the strip and keep whichever fits more plants. -/
noncomputable def placeInHorizontalRegion (width height spacing : ℝ) (regionBounds : ℝ × ℝ) :
    List Point :=
  let stripHeight := height * (regionBounds.2 - regionBounds.1)
  let stripTop := -height / 2 + regionBounds.1 * height
  let stripBottom := stripTop + stripHeight
  let gridPositions :=
    generateGridInHorizontalStrip width stripHeight spacing stripTop stripBottom Method.auto 0
  let hexPositions :=
    generateHexInHorizontalStrip width stripHeight spacing stripTop stripBottom Method.auto 0
  if gridPositions.length < hexPositions.length then hexPositions else gridPositions

/-- `placeInVerticalRegion` of `part_000` (lines 367–377). -/
noncomputable def placeInVerticalRegion (width height spacing : ℝ) (regionBounds : ℝ × ℝ) :
    List Point :=
  let stripWidth := width * (regionBounds.2 - regionBounds.1)
  let stripLeft := -width / 2 + regionBounds.1 * width
  let stripRight := stripLeft + stripWidth
  let gridPositions :=
    generateGridInVerticalStrip stripWidth height spacing stripLeft stripRight Method.auto 0
  let hexPositions :=
    generateHexInVerticalStrip stripWidth height spacing stripLeft stripRight Method.auto 0
  if gridPositions.length < hexPositions.length then hexPositions else gridPositions

/-- `placeInCircularRegion` of `part_000` (lines 382–404): the annulus between
`start·radius` and `end·radius` (here `regionBounds.1 / regionBounds.2`) is
split into `max(1, ⌊ringWidth/spacing⌋)` sub-rings at interpolated radii,
each holding `max(1, ⌊circumference/spacing⌋)` equally spaced plants. -/
noncomputable def placeInCircularRegion (radius spacing : ℝ) (regionBounds : ℝ × ℝ) :
    List Point :=
  let innerRadius := radius * regionBounds.1
  let outerRadius := radius * regionBounds.2
  let ringWidth := outerRadius - innerRadius
  let numSubRings : ℤ := max 1 ⌊ringWidth / spacing⌋
  (List.range numSubRings.toNat).flatMap fun (subRing : ℕ) =>
    let ringRadius := innerRadius + ringWidth / ((numSubRings : ℝ) + 1) * ((subRing : ℝ) + 1)
    let circumference := 2 * Real.pi * ringRadius
    let plantsInRing : ℤ := max 1 ⌊circumference / spacing⌋
    (List.range plantsInRing.toNat).map fun (i : ℕ) =>
      let angle := 2 * Real.pi * (i : ℝ) / (plantsInRing : ℝ)
      ⟨Real.cos angle * ringRadius, Real.sin angle * ringRadius⟩

/-- `placeInRegion` of `part_000` (lines 339–347): dispatch on bed shape and
orientation; no inter-layer filtering in region mode. -/
noncomputable def placeInRegion (width height spacing : ℝ) (isCircle : Bool) (radius : ℝ)
    (isHorizontal : Bool) (regionBounds : ℝ × ℝ) : List Point :=
  if isCircle then placeInCircularRegion radius spacing regionBounds
  else if isHorizontal then placeInHorizontalRegion width height spacing regionBounds
  else placeInVerticalRegion width height spacing regionBounds

/-- `placeInHorizontalLayerWithBounds` of `part_000` (lines 454–475): best of
the two strip generators, filtered against previous layers, then the fill
method (already applied inside the generators for `rows`). -/
noncomputable def placeInHorizontalLayerWithBounds (width height spacing : ℝ) (pattern : Pattern)
    (method : Method) (value : ℤ) (layerIndex totalLayers : ℕ)
    (previousLayers : List PlantGroup) (bounds : ℝ × ℝ) : List Point :=
  let stripHeight := height * (bounds.2 - bounds.1)
  let stripTop := -height / 2 + bounds.1 * height
  let stripBottom := stripTop + stripHeight
  let gridPositions :=
    generateGridInHorizontalStrip width stripHeight spacing stripTop stripBottom method value
  let hexPositions :=
    generateHexInHorizontalStrip width stripHeight spacing stripTop stripBottom method value
  let positions := if gridPositions.length < hexPositions.length then hexPositions else gridPositions
  let filteredPositions := filterByInterLayerSpacing positions spacing previousLayers
  if method = Method.rows then filteredPositions
  else applyFillMethod filteredPositions method value

/-- `placeInVerticalLayerWithBounds` of `part_000` (lines 566–587). -/
noncomputable def placeInVerticalLayerWithBounds (width height spacing : ℝ) (pattern : Pattern)
    (method : Method) (value : ℤ) (layerIndex totalLayers : ℕ)
    (previousLayers : List PlantGroup) (bounds : ℝ × ℝ) : List Point :=
  let stripWidth := width * (bounds.2 - bounds.1)
  let stripLeft := -width / 2 + bounds.1 * width
  let stripRight := stripLeft + stripWidth
  let gridPositions :=
    generateGridInVerticalStrip stripWidth height spacing stripLeft stripRight method value
  let hexPositions :=
    generateHexInVerticalStrip stripWidth height spacing stripLeft stripRight method value
  let positions := if gridPositions.length < hexPositions.length then hexPositions else gridPositions
  let filteredPositions := filterByInterLayerSpacing positions spacing previousLayers
  if method = Method.rows then filteredPositions
  else applyFillMethod filteredPositions method value

open Classical in
/-- `placeInCircularLayerWithBounds` of `part_000` (lines 679–716): sub-rings
as in `placeInCircularRegion` (with the per-ring count capped for `rows`),
filtered against previous layers, then the fill method. -/
noncomputable def placeInCircularLayerWithBounds (radius spacing : ℝ) (pattern : Pattern)
    (method : Method) (value : ℤ) (layerIndex totalLayers : ℕ)
    (previousLayers : List PlantGroup) (bounds : ℝ × ℝ) : List Point :=
  let innerRadius := radius * bounds.1
  let outerRadius := radius * bounds.2
  let ringWidth := outerRadius - innerRadius
  let numSubRings : ℤ := max 1 ⌊ringWidth / spacing⌋
  let positions := (List.range numSubRings.toNat).flatMap fun (subRing : ℕ) =>
    let ringRadius := innerRadius + ringWidth / ((numSubRings : ℝ) + 1) * ((subRing : ℝ) + 1)
    let circumference := 2 * Real.pi * ringRadius
    let plantsInRing : ℤ :=
      if method = Method.rows ∧ 0 < value then min value (max 1 ⌊circumference / spacing⌋)
      else max 1 ⌊circumference / spacing⌋
    (List.range plantsInRing.toNat).map fun (i : ℕ) =>
      let angle := 2 * Real.pi * (i : ℝ) / (plantsInRing : ℝ)
      (⟨Real.cos angle * ringRadius, Real.sin angle * ringRadius⟩ : Point)
  let filteredPositions := filterByInterLayerSpacing positions spacing previousLayers
  if method = Method.rows then filteredPositions
  else applyFillMethod filteredPositions method value

/-- `placeInLayerWithBounds` of `part_000` (lines 422–438): dispatch on bed
shape and orientation. -/
noncomputable def placeInLayerWithBounds (width height spacing : ℝ) (pattern : Pattern)
    (method : Method) (value : ℤ) (layerIndex totalLayers : ℕ) (isCircle : Bool) (radius : ℝ)
    (isHorizontal : Bool) (previousLayers : List PlantGroup) (bounds : ℝ × ℝ) : List Point :=
  if isCircle then
    placeInCircularLayerWithBounds radius spacing pattern method value layerIndex totalLayers
      previousLayers bounds
  else if isHorizontal then
    placeInHorizontalLayerWithBounds width height spacing pattern method value layerIndex
      totalLayers previousLayers bounds
  else
    placeInVerticalLayerWithBounds width height spacing pattern method value layerIndex
      totalLayers previousLayers bounds

end Part0

namespace Placement

/-- `gridPattern` of `src/placement.js` (lines 38–57): row/column counts
`Math.floor(dimension / spacing)`, lattice centered in the bed
(`offset = (dim - (count-1)·spacing) / 2`), emitted row-major. -/
noncomputable def gridPattern (width height spacing : ℝ) : List Point :=
  let cols : ℤ := ⌊width / spacing⌋
  let rows : ℤ := ⌊height / spacing⌋
  let offsetX := (width - ((cols : ℝ) - 1) * spacing) / 2
  let offsetY := (height - ((rows : ℝ) - 1) * spacing) / 2
  (List.range rows.toNat).flatMap fun (row : ℕ) =>
    (List.range cols.toNat).map fun (col : ℕ) =>
      ⟨(col : ℝ) * spacing + offsetX - width / 2, (row : ℝ) * spacing + offsetY - height / 2⟩

/-- `gridPattern` of `placement.js` with the JS divide-by-zero loop bound made
explicit (see `Part0.gridPatternRun`). -/
noncomputable def gridPatternRun (width height spacing : ℝ) : Option (List Point) :=
  if spacing = 0 ∧ 0 < height then none else some (gridPattern width height spacing)

/-- `hexagonalPattern` of `src/placement.js` (lines 62–89): row pitch
`spacing·√3/2`, odd rows shifted by `spacing/2`, per-row column count
`Math.floor((width - offset) / spacing)`, each row centered in the bed. -/
noncomputable def hexagonalPattern (width height spacing : ℝ) : List Point :=
  let verticalSpacing := spacing * Real.sqrt 3 / 2
  let rows : ℤ := ⌊height / verticalSpacing⌋
  (List.range rows.toNat).flatMap fun (row : ℕ) =>
    let y := (row : ℝ) * verticalSpacing
    let offset := ((row % 2 : ℕ) : ℝ) * (spacing / 2)
    let cols : ℤ := ⌊(width - offset) / spacing⌋
    let rowWidth := ((cols : ℝ) - 1) * spacing + offset
    let offsetX := (width - rowWidth) / 2
    (List.range cols.toNat).map fun (col : ℕ) =>
      ⟨(col : ℝ) * spacing + offset + offsetX - width / 2, y - height / 2⟩

open Classical in
/-- `placeInCircle` of `src/placement.js` (lines 17–33). -/
noncomputable def placeInCircle (radius spacing : ℝ) (pattern : Pattern) : List Point :=
  let diameter := radius * 2
  let positions :=
    if pattern = Pattern.hexagonal then hexagonalPattern diameter diameter spacing
    else gridPattern diameter diameter spacing
  positions.filter fun pos =>
    decide (Real.sqrt (pos.x * pos.x + pos.y * pos.y) ≤ radius - spacing / 2)

end Placement

namespace App

/-- `getRegionBounds` of `src/unnamed/part_002` (lines 2426–2439), as a pure
function of the group count, the boundary list and the group (layer) index:
one group owns the whole bed `{0, 1}`; otherwise the region runs from
`boundaries[layerIndex-1]` (or 0 for the first group) to
`boundaries[layerIndex]` (or 1 for the last group). -/
def getRegionBounds (numGroups : ℕ) (boundaries : List ℝ) (layerIndex : ℕ) : ℝ × ℝ :=
  if numGroups = 1 then (0, 1)
  else
    ((if layerIndex = 0 then 0 else boundaries.getD (layerIndex - 1) 0),
     (if layerIndex = numGroups - 1 then 1 else boundaries.getD layerIndex 0))

/-- The ascending sequence of cut points `0, boundaries[0], …,
boundaries[numGroups-2], 1` read off by `getRegionBounds`: region `i` runs
from cut `i` to cut `i+1`.  Proof-side helper for the tiling claim. -/
def regionCut (numGroups : ℕ) (boundaries : List ℝ) (k : ℕ) : ℝ :=
  if k = 0 then 0 else if numGroups ≤ k then 1 else boundaries.getD (k - 1) 0

end App

/-! ## Helper lemmas -/

/-- A loop index below a `Math.floor(a / s)` bound: the next lattice step
still fits inside `a`. -/
lemma step_fits {a s : ℝ} (hs : 0 < s) {n : ℕ} (hn : n < (⌊a / s⌋).toNat) :
    ((n : ℝ) + 1) * s ≤ a := by
  have h1 : ((n : ℤ) + 1) ≤ ⌊a / s⌋ := by
    have := Int.lt_toNat.mp hn
    omega
  have h2 : ((n : ℝ) + 1) ≤ a / s := by
    have := Int.le_floor.mp h1
    exact_mod_cast this
  exact (le_div_iff₀ hs).mp h2

/-- The floor-count times the step never exceeds the length. -/
lemma floor_count_mul_le {a s : ℝ} (hs : 0 < s) : ((⌊a / s⌋ : ℝ)) * s ≤ a := by
  have := Int.floor_le (a / s)
  calc ((⌊a / s⌋ : ℝ)) * s ≤ (a / s) * s := by nlinarith
    _ = a := div_mul_cancel₀ a (ne_of_gt hs)

lemma one_le_sqrt_three : (1 : ℝ) ≤ Real.sqrt 3 := by
  rw [show (1 : ℝ) = Real.sqrt 1 from (Real.sqrt_one).symm]
  exact Real.sqrt_le_sqrt (by norm_num)

lemma sqrt_three_le_two : Real.sqrt 3 ≤ 2 := by
  rw [show (2 : ℝ) = Real.sqrt 4 from by
    rw [show (4 : ℝ) = 2 ^ 2 by norm_num, Real.sqrt_sq (by norm_num)]]
  exact Real.sqrt_le_sqrt (by norm_num)

/-- Containment for the top-left-anchored grid of `part_000`. -/
lemma part0_grid_bounds {width height spacing : ℝ} (hs : 0 < spacing) :
    ∀ p ∈ Part0.gridPattern width height spacing,
      |p.x| ≤ width / 2 ∧ |p.y| ≤ height / 2 := by
  intro p hp
  simp only [Part0.gridPattern, List.mem_flatMap, List.mem_map, List.mem_range] at hp
  obtain ⟨row, hrow, col, hcol, rfl⟩ := hp
  have hx := step_fits hs hcol
  have hy := step_fits hs hrow
  have hc0 : (0 : ℝ) ≤ (col : ℝ) := Nat.cast_nonneg col
  have hr0 : (0 : ℝ) ≤ (row : ℝ) := Nat.cast_nonneg row
  constructor <;> rw [abs_le] <;> constructor <;> simp only [] <;> nlinarith

/-- Containment for the top-left-anchored hexagonal lattice of `part_000`. -/
lemma part0_hex_bounds {width height spacing : ℝ} (hs : 0 < spacing) :
    ∀ p ∈ Part0.hexagonalPattern width height spacing,
      |p.x| ≤ width / 2 ∧ |p.y| ≤ height / 2 := by
  intro p hp
  simp only [Part0.hexagonalPattern, List.mem_flatMap, List.mem_map, List.mem_range] at hp
  obtain ⟨row, hrow, col, hcol, rfl⟩ := hp
  have hvs : 0 < spacing * Real.sqrt 3 / 2 := by
    have h3 : (0 : ℝ) < Real.sqrt 3 := lt_of_lt_of_le one_pos one_le_sqrt_three
    positivity
  have hvs2 : spacing / 2 ≤ spacing * Real.sqrt 3 / 2 := by
    nlinarith [one_le_sqrt_three]
  have hy := step_fits hvs hrow
  have hx := step_fits hs hcol
  have hoff0 : (0 : ℝ) ≤ ((row % 2 : ℕ) : ℝ) * (spacing / 2) := by positivity
  have hoff1 : ((row % 2 : ℕ) : ℝ) * (spacing / 2) ≤ spacing / 2 := by
    have : ((row % 2 : ℕ) : ℝ) ≤ 1 := by
      have : row % 2 ≤ 1 := Nat.le_of_lt_succ (Nat.mod_lt row (by norm_num))
      exact_mod_cast this
    nlinarith
  have hc0 : (0 : ℝ) ≤ (col : ℝ) := Nat.cast_nonneg col
  have hr0 : (0 : ℝ) ≤ (row : ℝ) := Nat.cast_nonneg row
  constructor <;> rw [abs_le] <;> constructor <;> simp only [] <;> nlinarith

/-- Containment for the centered grid of `placement.js`. -/
lemma placement_grid_bounds {width height spacing : ℝ} (hs : 0 < spacing) :
    ∀ p ∈ Placement.gridPattern width height spacing,
      |p.x| ≤ width / 2 ∧ |p.y| ≤ height / 2 := by
  intro p hp
  simp only [Placement.gridPattern, List.mem_flatMap, List.mem_map, List.mem_range] at hp
  obtain ⟨row, hrow, col, hcol, rfl⟩ := hp
  have hcw : ((⌊width / spacing⌋ : ℝ)) * spacing ≤ width := floor_count_mul_le hs
  have hrh : ((⌊height / spacing⌋ : ℝ)) * spacing ≤ height := floor_count_mul_le hs
  have hcol' : ((col : ℝ) + 1) ≤ (⌊width / spacing⌋ : ℝ) := by
    have := Int.lt_toNat.mp hcol
    exact_mod_cast this
  have hrow' : ((row : ℝ) + 1) ≤ (⌊height / spacing⌋ : ℝ) := by
    have := Int.lt_toNat.mp hrow
    exact_mod_cast this
  have hc0 : (0 : ℝ) ≤ (col : ℝ) := Nat.cast_nonneg col
  have hr0 : (0 : ℝ) ≤ (row : ℝ) := Nat.cast_nonneg row
  constructor <;> rw [abs_le] <;> constructor <;> simp only [] <;> nlinarith

/-- Containment for the row-centered hexagonal lattice of `placement.js`. -/
lemma placement_hex_bounds {width height spacing : ℝ} (hs : 0 < spacing) :
    ∀ p ∈ Placement.hexagonalPattern width height spacing,
      |p.x| ≤ width / 2 ∧ |p.y| ≤ height / 2 := by
  intro p hp
  simp only [Placement.hexagonalPattern, List.mem_flatMap, List.mem_map, List.mem_range] at hp
  obtain ⟨row, hrow, col, hcol, rfl⟩ := hp
  have hvs : 0 < spacing * Real.sqrt 3 / 2 := by
    have h3 : (0 : ℝ) < Real.sqrt 3 := lt_of_lt_of_le one_pos one_le_sqrt_three
    positivity
  have hvs2 : spacing / 2 ≤ spacing * Real.sqrt 3 / 2 := by
    nlinarith [one_le_sqrt_three]
  have hy := step_fits hvs hrow
  have hrowN : ((row : ℝ) + 1) ≤ (⌊height / (spacing * Real.sqrt 3 / 2)⌋ : ℝ) := by
    have := Int.lt_toNat.mp hrow
    exact_mod_cast this
  have hoff0 : (0 : ℝ) ≤ ((row % 2 : ℕ) : ℝ) * (spacing / 2) := by positivity
  have hoff1 : ((row % 2 : ℕ) : ℝ) * (spacing / 2) ≤ spacing / 2 := by
    have : ((row % 2 : ℕ) : ℝ) ≤ 1 := by
      have : row % 2 ≤ 1 := Nat.le_of_lt_succ (Nat.mod_lt row (by norm_num))
      exact_mod_cast this
    nlinarith
  have hcw : ((⌊(width - ((row % 2 : ℕ) : ℝ) * (spacing / 2)) / spacing⌋ : ℝ)) * spacing ≤
      width - ((row % 2 : ℕ) : ℝ) * (spacing / 2) := floor_count_mul_le hs
  have hcol' : ((col : ℝ) + 1) ≤
      (⌊(width - ((row % 2 : ℕ) : ℝ) * (spacing / 2)) / spacing⌋ : ℝ) := by
    have := Int.lt_toNat.mp hcol
    exact_mod_cast this
  have hc0 : (0 : ℝ) ≤ (col : ℝ) := Nat.cast_nonneg col
  have hr0 : (0 : ℝ) ≤ (row : ℝ) := Nat.cast_nonneg row
  constructor <;> rw [abs_le] <;> constructor <;> simp only [] <;> nlinarith

/-- Every point kept by the circle filter of `Part0.placeInCircle` satisfies
the clipping predicate. -/
lemma part0_placeInCircle_le {radius spacing : ℝ} {pattern : Pattern} :
    ∀ p ∈ Part0.placeInCircle radius spacing pattern,
      Real.sqrt (p.x * p.x + p.y * p.y) ≤ radius - spacing / 2 := by
  intro p hp
  simp only [Part0.placeInCircle] at hp
  rw [List.mem_filter] at hp
  exact of_decide_eq_true hp.2

/-- Every point kept by the circle filter of `Placement.placeInCircle`
satisfies the clipping predicate. -/
lemma placement_placeInCircle_le {radius spacing : ℝ} {pattern : Pattern} :
    ∀ p ∈ Placement.placeInCircle radius spacing pattern,
      Real.sqrt (p.x * p.x + p.y * p.y) ≤ radius - spacing / 2 := by
  intro p hp
  simp only [Placement.placeInCircle] at hp
  rw [List.mem_filter] at hp
  exact of_decide_eq_true hp.2

/-! ## C1 -/

/-- C1: for every container and every spacing > 0, every point returned by
the rectangle generators (`gridPattern` and `hexagonalPattern`, in both
source revisions, and hence by `placeInRectangle`) satisfies
`|x| ≤ width/2` and `|y| ≤ height/2`, and every point returned by
`placeInCircle` lies at Euclidean distance ≤ `radius - spacing/2` from the
origin. -/
theorem C1_generator_containment (width height radius spacing : ℝ) (pattern : Pattern)
    (hs : 0 < spacing) :
    (∀ p ∈ Part0.gridPattern width height spacing,
      |p.x| ≤ width / 2 ∧ |p.y| ≤ height / 2) ∧
    (∀ p ∈ Part0.hexagonalPattern width height spacing,
      |p.x| ≤ width / 2 ∧ |p.y| ≤ height / 2) ∧
    (∀ p ∈ Placement.gridPattern width height spacing,
      |p.x| ≤ width / 2 ∧ |p.y| ≤ height / 2) ∧
    (∀ p ∈ Placement.hexagonalPattern width height spacing,
      |p.x| ≤ width / 2 ∧ |p.y| ≤ height / 2) ∧
    (∀ p ∈ Part0.placeInRectangle width height spacing pattern,
      |p.x| ≤ width / 2 ∧ |p.y| ≤ height / 2) ∧
    (∀ p ∈ Part0.placeInCircle radius spacing pattern,
      Real.sqrt (p.x * p.x + p.y * p.y) ≤ radius - spacing / 2) ∧
    (∀ p ∈ Placement.placeInCircle radius spacing pattern,
      Real.sqrt (p.x * p.x + p.y * p.y) ≤ radius - spacing / 2) := by
  refine ⟨part0_grid_bounds hs, part0_hex_bounds hs,
    placement_grid_bounds hs, placement_hex_bounds hs, ?_,
    part0_placeInCircle_le, placement_placeInCircle_le⟩
  intro p hp
  rw [Part0.placeInRectangle] at hp
  by_cases hpat : pattern = Pattern.hexagonal
  · rw [if_pos hpat] at hp
    exact part0_hex_bounds hs p hp
  · rw [if_neg hpat] at hp
    exact part0_grid_bounds hs p hp

/-- Witness for C1 at the concrete input width 4, height 4, radius 2,
spacing 1, grid pattern. -/
theorem C1_generator_containment_witness :
    (0 : ℝ) < 1 ∧
    ((∀ p ∈ Part0.gridPattern 4 4 1, |p.x| ≤ 4 / 2 ∧ |p.y| ≤ 4 / 2) ∧
     (∀ p ∈ Part0.hexagonalPattern 4 4 1, |p.x| ≤ 4 / 2 ∧ |p.y| ≤ 4 / 2) ∧
     (∀ p ∈ Placement.gridPattern 4 4 1, |p.x| ≤ 4 / 2 ∧ |p.y| ≤ 4 / 2) ∧
     (∀ p ∈ Placement.hexagonalPattern 4 4 1, |p.x| ≤ 4 / 2 ∧ |p.y| ≤ 4 / 2) ∧
     (∀ p ∈ Part0.placeInRectangle 4 4 1 Pattern.grid, |p.x| ≤ 4 / 2 ∧ |p.y| ≤ 4 / 2) ∧
     (∀ p ∈ Part0.placeInCircle 2 1 Pattern.grid,
       Real.sqrt (p.x * p.x + p.y * p.y) ≤ 2 - 1 / 2) ∧
     (∀ p ∈ Placement.placeInCircle 2 1 Pattern.grid,
       Real.sqrt (p.x * p.x + p.y * p.y) ≤ 2 - 1 / 2)) :=
  ⟨one_pos, C1_generator_containment 4 4 2 1 Pattern.grid one_pos⟩

/-! ## C2 -/

/-- A JS `slice(0, e)` is a sublist of the original array. -/
lemma jsSlice_subset {α : Type} {l : List α} {e : ℤ} : ∀ p ∈ jsSlice l e, p ∈ l := by
  intro p hp
  rw [jsSlice] at hp
  split at hp <;> exact List.take_subset _ _ hp

/-- The fill method only ever discards positions. -/
lemma applyFillMethod_subset {positions : List Point} {method : Method} {value : ℤ} :
    ∀ p ∈ Part0.applyFillMethod positions method value, p ∈ positions := by
  intro p hp
  cases method <;> simp only [Part0.applyFillMethod] at hp
  · exact hp
  · exact jsSlice_subset p hp
  · exact hp
  · exact jsSlice_subset p hp

/-- A candidate retained by `filterByInterLayerSpacing` is at distance at
least `max(candidateSpacing, layerSpacing)` from every previous-layer point. -/
lemma filterByInterLayerSpacing_dist {cands : List Point} {s : ℝ} {layers : List PlantGroup}
    {p : Point} (hp : p ∈ Part0.filterByInterLayerSpacing cands s layers) :
    ∀ L ∈ layers, ∀ q ∈ L.positions,
      max s L.spacing ≤ Real.sqrt ((p.x - q.x) ^ 2 + (p.y - q.y) ^ 2) := by
  rw [Part0.filterByInterLayerSpacing, List.mem_filter] at hp
  have h := of_decide_eq_true hp.2
  intro L hL q hq
  exact not_lt.mp (h L hL q hq)

/-- Membership in `if method = rows then filtered else applyFillMethod …`
implies membership in the filtered list. -/
lemma ite_fill_subset {filtered : List Point} {m : Method} {v : ℤ} {p : Point}
    (hp : p ∈ if m = Method.rows then filtered else Part0.applyFillMethod filtered m v) :
    p ∈ filtered := by
  split at hp
  · exact hp
  · exact applyFillMethod_subset p hp

/-- Points produced by the layered path keep the inter-layer distance. -/
lemma placeInLayerWithBounds_dist {width height spacing : ℝ} {pattern : Pattern}
    {method : Method} {value : ℤ} {layerIndex totalLayers : ℕ} {isCircle : Bool} {radius : ℝ}
    {isHorizontal : Bool} {previousLayers : List PlantGroup} {bounds : ℝ × ℝ} {p : Point}
    (hp : p ∈ Part0.placeInLayerWithBounds width height spacing pattern method value layerIndex
      totalLayers isCircle radius isHorizontal previousLayers bounds) :
    ∀ L ∈ previousLayers, ∀ q ∈ L.positions,
      max spacing L.spacing ≤ Real.sqrt ((p.x - q.x) ^ 2 + (p.y - q.y) ^ 2) := by
  rw [Part0.placeInLayerWithBounds] at hp
  split at hp
  · rw [Part0.placeInCircularLayerWithBounds] at hp
    exact filterByInterLayerSpacing_dist (ite_fill_subset hp)
  split at hp
  · rw [Part0.placeInHorizontalLayerWithBounds] at hp
    exact filterByInterLayerSpacing_dist (ite_fill_subset hp)
  · rw [Part0.placeInVerticalLayerWithBounds] at hp
    exact filterByInterLayerSpacing_dist (ite_fill_subset hp)

/-- C2: every candidate retained by the layered filter
`filterByInterLayerSpacing` lies at Euclidean distance ≥
`max(candidateSpacing, earlierLayerSpacing)` from every point of every
earlier layer; consequently, for a later group placed via the layered path
(`placeInLayerWithBounds`, any shape/orientation/method) over earlier
groups `previousLayers`, every placed point is at distance ≥
`max(laterSpacing, earlierSpacing)` from every earlier point, so the
minimum pairwise distance between the two groups is at least the max of
their spacings. -/
theorem C2_layered_filter_max_spacing (cands : List Point) (width height spacing radius : ℝ)
    (pattern : Pattern) (method : Method) (value : ℤ) (layerIndex totalLayers : ℕ)
    (isCircle isHorizontal : Bool) (previousLayers : List PlantGroup) (bounds : ℝ × ℝ) :
    (∀ p ∈ Part0.filterByInterLayerSpacing cands spacing previousLayers,
      ∀ L ∈ previousLayers, ∀ q ∈ L.positions,
        max spacing L.spacing ≤ Real.sqrt ((p.x - q.x) ^ 2 + (p.y - q.y) ^ 2)) ∧
    (∀ p ∈ Part0.placeInLayerWithBounds width height spacing pattern method value layerIndex
        totalLayers isCircle radius isHorizontal previousLayers bounds,
      ∀ L ∈ previousLayers, ∀ q ∈ L.positions,
        max spacing L.spacing ≤ Real.sqrt ((p.x - q.x) ^ 2 + (p.y - q.y) ^ 2)) :=
  ⟨fun _ hp => filterByInterLayerSpacing_dist hp, fun _ hp => placeInLayerWithBounds_dist hp⟩

/-! ## C3 -/

/-- An in-range `getD` with default 0 reads a member of the list. -/
lemma getD_mem_of_lt {boundaries : List ℝ} {n : ℕ} (h : n < boundaries.length) :
    boundaries.getD n 0 ∈ boundaries := by
  rw [List.getD_eq_getElem boundaries 0 h]
  exact List.getElem_mem h

/-- For a group index below the group count, `getRegionBounds` reads off two
consecutive cut points. -/
lemma getRegionBounds_eq_cut {numGroups : ℕ} {boundaries : List ℝ} {i : ℕ}
    (hi : i < numGroups) :
    App.getRegionBounds numGroups boundaries i =
      (App.regionCut numGroups boundaries i, App.regionCut numGroups boundaries (i + 1)) := by
  by_cases h1 : numGroups = 1
  · subst h1
    have hi0 : i = 0 := by omega
    subst hi0
    rw [App.getRegionBounds, if_pos rfl]
    simp [App.regionCut]
  · rw [App.getRegionBounds, if_neg h1, App.regionCut, App.regionCut, Prod.mk.injEq]
    constructor
    · by_cases hi0 : i = 0
      · rw [if_pos hi0, if_pos hi0]
      · rw [if_neg hi0, if_neg hi0, if_neg (show ¬ numGroups ≤ i by omega)]
    · rw [if_neg (Nat.succ_ne_zero i)]
      by_cases hlast : i = numGroups - 1
      · rw [if_pos hlast, if_pos (show numGroups ≤ i + 1 by omega)]
      · rw [if_neg hlast, if_neg (show ¬ numGroups ≤ i + 1 by omega), Nat.add_sub_cancel]

/-- Consecutive cut points are in order for an ascending boundary list living
in (0,1) whose length is `numGroups - 1`. -/
lemma regionCut_le_succ {numGroups : ℕ} {boundaries : List ℝ}
    (hlen : boundaries.length = numGroups - 1)
    (hmem : ∀ b ∈ boundaries, 0 < b ∧ b < 1)
    (hsorted : boundaries.Pairwise (· < ·)) :
    ∀ k, App.regionCut numGroups boundaries k ≤ App.regionCut numGroups boundaries (k + 1) := by
  intro k
  by_cases hk0 : k = 0
  · subst hk0
    rw [App.regionCut, if_pos rfl, App.regionCut, if_neg (Nat.succ_ne_zero 0)]
    by_cases hN1 : numGroups ≤ 0 + 1
    · rw [if_pos hN1]
      norm_num
    · rw [if_neg hN1, Nat.add_sub_cancel]
      have h0 : (0 : ℕ) < boundaries.length := by omega
      exact le_of_lt (hmem _ (getD_mem_of_lt h0)).1
  · rw [App.regionCut, if_neg hk0, App.regionCut, if_neg (Nat.succ_ne_zero k)]
    by_cases hk1 : numGroups ≤ k
    · rw [if_pos hk1, if_pos (show numGroups ≤ k + 1 by omega)]
    · rw [if_neg hk1]
      by_cases hk2 : numGroups ≤ k + 1
      · rw [if_pos hk2]
        have h1 : k - 1 < boundaries.length := by omega
        exact le_of_lt (hmem _ (getD_mem_of_lt h1)).2
      · rw [if_neg hk2, Nat.add_sub_cancel]
        have h1 : k - 1 < boundaries.length := by omega
        have h2 : k < boundaries.length := by omega
        rw [List.getD_eq_getElem boundaries 0 h1, List.getD_eq_getElem boundaries 0 h2]
        exact le_of_lt (List.pairwise_iff_getElem.mp hsorted _ _ h1 h2 (by omega))

/-- A point of `[f 0, f n]` lies between two consecutive values of a chain. -/
lemma exists_between_cuts (f : ℕ → ℝ) (x : ℝ) (hmono : ∀ k, f k ≤ f (k + 1)) :
    ∀ n, 1 ≤ n → f 0 ≤ x → x ≤ f n → ∃ i, i < n ∧ f i ≤ x ∧ x ≤ f (i + 1) := by
  intro n
  induction n with
  | zero => exact fun h => absurd h (by norm_num)
  | succ n ih =>
    intro _ h0 hx
    by_cases hn : n = 0
    · subst hn
      exact ⟨0, by norm_num, h0, hx⟩
    · by_cases hxn : x ≤ f n
      · obtain ⟨i, hi, h⟩ := ih (by omega) h0 hxn
        exact ⟨i, by omega, h⟩
      · exact ⟨n, by omega, le_of_not_le hxn, hx⟩

/-- C3: for every group count N ≥ 1 and boundary list of length N−1 with
strictly ascending values in (0,1), the per-group region bounds of
`getRegionBounds` tile [0,1] exactly: region 0 starts at 0, the last region
ends at 1, each region's end equals the next region's start, every point of
[0,1] is covered by some region, and regions with smaller index end before
later regions begin (no gap, no overlap). -/
theorem C3_region_bounds_tile (numGroups : ℕ) (boundaries : List ℝ)
    (hN : 1 ≤ numGroups) (hlen : boundaries.length = numGroups - 1)
    (hmem : ∀ b ∈ boundaries, 0 < b ∧ b < 1)
    (hsorted : boundaries.Pairwise (· < ·)) :
    (App.getRegionBounds numGroups boundaries 0).1 = 0 ∧
    (App.getRegionBounds numGroups boundaries (numGroups - 1)).2 = 1 ∧
    (∀ i, i + 1 < numGroups →
      (App.getRegionBounds numGroups boundaries i).2 =
        (App.getRegionBounds numGroups boundaries (i + 1)).1) ∧
    (∀ x : ℝ, 0 ≤ x → x ≤ 1 → ∃ i, i < numGroups ∧
      (App.getRegionBounds numGroups boundaries i).1 ≤ x ∧
      x ≤ (App.getRegionBounds numGroups boundaries i).2) ∧
    (∀ i j, i < j → j < numGroups →
      (App.getRegionBounds numGroups boundaries i).2 ≤
        (App.getRegionBounds numGroups boundaries j).1) := by
  have hstep := regionCut_le_succ hlen hmem hsorted
  have hmono : Monotone (fun k => App.regionCut numGroups boundaries k) :=
    monotone_nat_of_le_succ hstep
  have hcut0 : App.regionCut numGroups boundaries 0 = 0 := by rw [App.regionCut, if_pos rfl]
  have hcutN : App.regionCut numGroups boundaries numGroups = 1 := by
    rw [App.regionCut, if_neg (by omega), if_pos le_rfl]
  refine ⟨?_, ?_, ?_, ?_, ?_⟩
  · rw [getRegionBounds_eq_cut (by omega), hcut0]
  · rw [getRegionBounds_eq_cut (by omega)]
    show App.regionCut numGroups boundaries (numGroups - 1 + 1) = 1
    rw [show numGroups - 1 + 1 = numGroups by omega, hcutN]
  · intro i hi
    rw [getRegionBounds_eq_cut (by omega), getRegionBounds_eq_cut (by omega)]
  · intro x hx0 hx1
    obtain ⟨i, hi, h1, h2⟩ := exists_between_cuts (fun k => App.regionCut numGroups boundaries k) x
      hstep numGroups hN (by simp only []; rw [hcut0]; exact hx0)
      (by simp only []; rw [hcutN]; exact hx1)
    refine ⟨i, hi, ?_, ?_⟩
    · rw [getRegionBounds_eq_cut hi]
      exact h1
    · rw [getRegionBounds_eq_cut hi]
      exact h2
  · intro i j hij hj
    rw [getRegionBounds_eq_cut (by omega), getRegionBounds_eq_cut hj]
    exact hmono (by omega : i + 1 ≤ j)

/-- Witness for C3 at the concrete input: two groups split at boundary 1/2. -/
theorem C3_region_bounds_tile_witness :
    (App.getRegionBounds 2 [(1 : ℝ) / 2] 0).1 = 0 ∧
    (App.getRegionBounds 2 [(1 : ℝ) / 2] (2 - 1)).2 = 1 ∧
    (∀ i, i + 1 < 2 →
      (App.getRegionBounds 2 [(1 : ℝ) / 2] i).2 =
        (App.getRegionBounds 2 [(1 : ℝ) / 2] (i + 1)).1) ∧
    (∀ x : ℝ, 0 ≤ x → x ≤ 1 → ∃ i, i < 2 ∧
      (App.getRegionBounds 2 [(1 : ℝ) / 2] i).1 ≤ x ∧
      x ≤ (App.getRegionBounds 2 [(1 : ℝ) / 2] i).2) ∧
    (∀ i j, i < j → j < 2 →
      (App.getRegionBounds 2 [(1 : ℝ) / 2] i).2 ≤
        (App.getRegionBounds 2 [(1 : ℝ) / 2] j).1) :=
  C3_region_bounds_tile 2 [(1 : ℝ) / 2] (by norm_num) (by norm_num)
    (by intro b hb; rw [List.mem_singleton] at hb; subst hb; norm_num)
    (List.pairwise_singleton _ _)

/-! ## C4 -/

/-- Every point of the grid strip generator passes the explicit strip bound
check on its y coordinate. -/
lemma generateGridInHorizontalStrip_y {width stripHeight spacing stripTop stripBottom : ℝ}
    {method : Method} {value : ℤ} :
    ∀ p ∈ Part0.generateGridInHorizontalStrip width stripHeight spacing stripTop stripBottom
      method value, stripTop ≤ p.y ∧ p.y ≤ stripBottom := by
  intro p hp
  simp only [Part0.generateGridInHorizontalStrip] at hp
  obtain ⟨row, hrow, hp⟩ := List.mem_flatMap.mp hp
  split at hp <;> split at hp <;>
    first
      | (obtain ⟨col, hcol, rfl⟩ := List.mem_map.mp hp
         assumption)
      | simp at hp

/-- Every point of the hexagonal strip generator passes the explicit strip
bound check on its y coordinate. -/
lemma generateHexInHorizontalStrip_y {width stripHeight spacing stripTop stripBottom : ℝ}
    {method : Method} {value : ℤ} :
    ∀ p ∈ Part0.generateHexInHorizontalStrip width stripHeight spacing stripTop stripBottom
      method value, stripTop ≤ p.y ∧ p.y ≤ stripBottom := by
  intro p hp
  simp only [Part0.generateHexInHorizontalStrip] at hp
  obtain ⟨row, hrow, hp⟩ := List.mem_flatMap.mp hp
  split at hp <;> split at hp <;>
    first
      | (obtain ⟨col, hcol, rfl⟩ := List.mem_map.mp hp
         assumption)
      | simp at hp

/-- Region-mode placement in a horizontal strip stays within the strip's own
y sub-bounds. -/
lemma placeInHorizontalRegion_y {width height spacing : ℝ} {regionBounds : ℝ × ℝ} :
    ∀ p ∈ Part0.placeInHorizontalRegion width height spacing regionBounds,
      -height / 2 + regionBounds.1 * height ≤ p.y ∧
      p.y ≤ -height / 2 + regionBounds.1 * height + height * (regionBounds.2 - regionBounds.1) := by
  intro p hp
  rw [Part0.placeInHorizontalRegion] at hp
  split at hp
  · exact generateHexInHorizontalStrip_y p hp
  · exact generateGridInHorizontalStrip_y p hp

/-- C4: on a horizontal rectangular bed (width > height) with two groups of
spacing 12 split at boundary 0.5, region-mode placement keeps group 1's
points in the top half-strip `[-height/2, 0]` and group 2's points in the
bottom half-strip `[0, height/2]`; no point crosses the divider. -/
theorem C4_two_groups_split_at_half (width height : ℝ) (hwh : height < width) :
    (∀ p ∈ Part0.placeInRegion width height 12 false 0 true
        (App.getRegionBounds 2 [(1 : ℝ) / 2] 0),
      -(height / 2) ≤ p.y ∧ p.y ≤ 0) ∧
    (∀ p ∈ Part0.placeInRegion width height 12 false 0 true
        (App.getRegionBounds 2 [(1 : ℝ) / 2] 1),
      0 ≤ p.y ∧ p.y ≤ height / 2) := by
  have hb0 : App.getRegionBounds 2 [(1 : ℝ) / 2] 0 = (0, 1 / 2) := by
    simp [App.getRegionBounds]
  have hb1 : App.getRegionBounds 2 [(1 : ℝ) / 2] 1 = (1 / 2, 1) := by
    simp [App.getRegionBounds]
  constructor
  · intro p hp
    rw [hb0] at hp
    simp only [Part0.placeInRegion, Bool.false_eq_true, if_false, if_true] at hp
    have h := placeInHorizontalRegion_y p hp
    constructor <;> [linarith [h.1]; linarith [h.2]]
  · intro p hp
    rw [hb1] at hp
    simp only [Part0.placeInRegion, Bool.false_eq_true, if_false, if_true] at hp
    have h := placeInHorizontalRegion_y p hp
    constructor <;> [linarith [h.1]; linarith [h.2]]

/-- Witness for C4 on the 96 × 48 bed of the spec's examples. -/
theorem C4_two_groups_split_at_half_witness :
    (48 : ℝ) < 96 ∧
    ((∀ p ∈ Part0.placeInRegion 96 48 12 false 0 true (App.getRegionBounds 2 [(1 : ℝ) / 2] 0),
      -(48 / 2 : ℝ) ≤ p.y ∧ p.y ≤ 0) ∧
     (∀ p ∈ Part0.placeInRegion 96 48 12 false 0 true (App.getRegionBounds 2 [(1 : ℝ) / 2] 1),
      0 ≤ p.y ∧ p.y ≤ (48 : ℝ) / 2)) :=
  ⟨by norm_num, C4_two_groups_split_at_half 96 48 (by norm_num)⟩

/-! ## C5 -/

/-- Length of a row-major generator: sum of the per-row column counts. -/
lemma length_flatMap_range_map {n : ℕ} {c : ℕ → ℕ} {f : ℕ → ℕ → Point} :
    ((List.range n).flatMap (fun row => (List.range (c row)).map (f row))).length =
      ((List.range n).map c).sum := by
  rw [List.length_flatMap]
  congr 1
  apply List.map_eq_map_iff.mpr
  intro a _
  simp

/-- Length of a row-major generator with a constant column count. -/
lemma length_flatMap_range_const {n m : ℕ} {f : ℕ → ℕ → Point} :
    ((List.range n).flatMap (fun row => (List.range m).map (f row))).length = n * m := by
  rw [length_flatMap_range_map]
  simp [List.map_const', List.sum_replicate, smul_eq_mul]

/-- If every row holds at least `C - 1` points, `n` rows hold at least
`n·C - n` points. -/
lemma mul_le_sum_add (n C : ℕ) (c : ℕ → ℕ) (h : ∀ r, r < n → C ≤ c r + 1) :
    n * C ≤ ((List.range n).map c).sum + n := by
  induction n with
  | zero => simp
  | succ n ih =>
    rw [List.range_succ, List.map_append, List.sum_append, Nat.succ_mul]
    have h1 := h n (by omega)
    have h2 := ih (fun r hr => h r (by omega))
    simp only [List.map_cons, List.map_nil, List.sum_cons, List.sum_nil]
    omega

/-- If even rows hold at least `C` points and odd rows at least `C - 1`,
`n` rows hold at least `n·C - ⌊n/2⌋` points. -/
lemma mul_le_sum_add_half (n C : ℕ) (c : ℕ → ℕ)
    (he : ∀ r, r < n → r % 2 = 0 → C ≤ c r)
    (ho : ∀ r, r < n → r % 2 = 1 → C ≤ c r + 1) :
    n * C ≤ ((List.range n).map c).sum + n / 2 := by
  induction n with
  | zero => simp
  | succ n ih =>
    rw [List.range_succ, List.map_append, List.sum_append, Nat.succ_mul]
    have h2 := ih (fun r hr h => he r (by omega) h) (fun r hr h => ho r (by omega) h)
    simp only [List.map_cons, List.map_nil, List.sum_cons, List.sum_nil]
    rcases Nat.mod_two_eq_zero_or_one n with hpar | hpar
    · have h1 := he n (by omega) hpar
      omega
    · have h1 := ho n (by omega) hpar
      omega

/-- The hexagonal lattice of `part_000` as a per-row sum. -/
lemma part0_hex_length (width height spacing : ℝ) :
    (Part0.hexagonalPattern width height spacing).length =
      ((List.range ((⌊height / (spacing * Real.sqrt 3 / 2)⌋).toNat)).map
        (fun r => (⌊(width - spacing / 2 - ((r % 2 : ℕ) : ℝ) * (spacing / 2)) / spacing⌋).toNat)).sum := by
  simp only [Part0.hexagonalPattern]
  exact length_flatMap_range_map

/-- The hexagonal lattice of `placement.js` as a per-row sum. -/
lemma placement_hex_length (width height spacing : ℝ) :
    (Placement.hexagonalPattern width height spacing).length =
      ((List.range ((⌊height / (spacing * Real.sqrt 3 / 2)⌋).toNat)).map
        (fun r => (⌊(width - ((r % 2 : ℕ) : ℝ) * (spacing / 2)) / spacing⌋).toNat)).sum := by
  simp only [Placement.hexagonalPattern]
  exact length_flatMap_range_map

/-- Grid point count of `part_000`: rows times columns. -/
lemma part0_grid_length (width height spacing : ℝ) :
    (Part0.gridPattern width height spacing).length =
      (⌊height / spacing⌋).toNat * (⌊width / spacing⌋).toNat := by
  simp only [Part0.gridPattern]
  exact length_flatMap_range_const

/-- Grid point count of `placement.js`: rows times columns. -/
lemma placement_grid_length (width height spacing : ℝ) :
    (Placement.gridPattern width height spacing).length =
      (⌊height / spacing⌋).toNat * (⌊width / spacing⌋).toNat := by
  simp only [Placement.gridPattern]
  exact length_flatMap_range_const

/-- A row offset by at most `spacing/2` loses at most one column relative to
the full-width count `⌊width/spacing⌋`. -/
lemma offset_row_count {width spacing off : ℝ} (hs : 0 < spacing) (h0 : 0 ≤ off)
    (h1 : off ≤ spacing / 2) :
    (⌊width / spacing⌋).toNat ≤ (⌊(width - off) / spacing⌋).toNat + 1 := by
  have key : width / spacing - 1 ≤ (width - off) / spacing := by
    have hnum : width - spacing ≤ width - off := by linarith
    calc width / spacing - 1 = (width - spacing) / spacing := by
          rw [sub_div, div_self (ne_of_gt hs)]
      _ ≤ (width - off) / spacing := by gcongr
  have hz : ⌊width / spacing⌋ - 1 ≤ ⌊(width - off) / spacing⌋ := by
    have := Int.floor_mono key
    rw [show width / spacing - 1 = width / spacing - (1 : ℤ) by norm_num,
      Int.floor_sub_int] at this
    omega
  omega

/-- The row pitch `spacing·√3/2` packs at least as many rows as pitch
`spacing`. -/
lemma gridRows_le_hexRows {height spacing : ℝ} (hs : 0 < spacing) (hh : 0 ≤ height) :
    (⌊height / spacing⌋).toNat ≤ (⌊height / (spacing * Real.sqrt 3 / 2)⌋).toNat := by
  have h3 : (0 : ℝ) < Real.sqrt 3 := lt_of_lt_of_le one_pos one_le_sqrt_three
  have hvs : 0 < spacing * Real.sqrt 3 / 2 := by positivity
  have hle : spacing * Real.sqrt 3 / 2 ≤ spacing := by nlinarith [sqrt_three_le_two]
  have hdiv : height / spacing ≤ height / (spacing * Real.sqrt 3 / 2) :=
    div_le_div_of_nonneg_left hh hvs hle
  have := Int.floor_mono hdiv
  omega

/-- C5 (amended): the claimed inequality hexCount ≥ gridCount fails in
general (see the counterexample); what does hold under the claim's
hypotheses spacing > 0 and height ≥ spacing·√3 is that the hexagonal
lattice loses at most one point per offset row: writing
`hexRows = ⌊height/(spacing·√3/2)⌋`, the centered generator
(`placement.js`) satisfies gridCount ≤ hexCount + ⌊hexRows/2⌋ and the
top-left generator (`part_000`) satisfies gridCount ≤ hexCount + hexRows. -/
theorem C5_hexagonal_vs_grid_count (width height spacing : ℝ) (hs : 0 < spacing)
    (hh : spacing * Real.sqrt 3 ≤ height) :
    (Placement.gridPattern width height spacing).length ≤
      (Placement.hexagonalPattern width height spacing).length +
        (⌊height / (spacing * Real.sqrt 3 / 2)⌋).toNat / 2 ∧
    (Part0.gridPattern width height spacing).length ≤
      (Part0.hexagonalPattern width height spacing).length +
        (⌊height / (spacing * Real.sqrt 3 / 2)⌋).toNat := by
  have h3 : (0 : ℝ) < Real.sqrt 3 := lt_of_lt_of_le one_pos one_le_sqrt_three
  have hh0 : (0 : ℝ) ≤ height := le_trans (by positivity) hh
  have hG := gridRows_le_hexRows hs hh0
  have hoffb : ∀ r : ℕ, ((r % 2 : ℕ) : ℝ) * (spacing / 2) ≤ spacing / 2 := by
    intro r
    have : ((r % 2 : ℕ) : ℝ) ≤ 1 := by
      have : r % 2 ≤ 1 := Nat.le_of_lt_succ (Nat.mod_lt r (by norm_num))
      exact_mod_cast this
    nlinarith
  have hoff0 : ∀ r : ℕ, (0 : ℝ) ≤ ((r % 2 : ℕ) : ℝ) * (spacing / 2) := by
    intro r
    positivity
  constructor
  · rw [placement_grid_length, placement_hex_length]
    refine le_trans (Nat.mul_le_mul_right _ hG) ?_
    exact mul_le_sum_add_half _ _ _
      (fun r hr hpar => by rw [hpar]; push_cast; simp)
      (fun r hr hpar => offset_row_count hs (hoff0 r) (hoffb r))
  · rw [part0_grid_length, part0_hex_length]
    refine le_trans (Nat.mul_le_mul_right _ hG) ?_
    apply mul_le_sum_add
    intro r hr
    have key : (⌊(width - spacing) / spacing⌋).toNat + 1 ≤
        (⌊(width - spacing / 2 - ((r % 2 : ℕ) : ℝ) * (spacing / 2)) / spacing⌋).toNat + 1 := by
      have hnum : width - spacing ≤ width - spacing / 2 - ((r % 2 : ℕ) : ℝ) * (spacing / 2) := by
        have := hoffb r
        linarith
      have := Int.floor_mono (by gcongr : (width - spacing) / spacing ≤
        (width - spacing / 2 - ((r % 2 : ℕ) : ℝ) * (spacing / 2)) / spacing)
      omega
    refine le_trans ?_ key
    have : width / spacing - 1 ≤ (width - spacing) / spacing := by
      rw [sub_div, div_self (ne_of_gt hs)]
    have hz := Int.floor_mono this
    rw [show width / spacing - 1 = width / spacing - (1 : ℤ) by norm_num,
      Int.floor_sub_int] at hz
    omega

/-- Witness for the amended C5 at width 10, height 10, spacing 1. -/
theorem C5_hexagonal_vs_grid_count_witness :
    (0 : ℝ) < 1 ∧
    ((Placement.gridPattern 10 10 1).length ≤
      (Placement.hexagonalPattern 10 10 1).length +
        (⌊(10 : ℝ) / (1 * Real.sqrt 3 / 2)⌋).toNat / 2 ∧
     (Part0.gridPattern 10 10 1).length ≤
      (Part0.hexagonalPattern 10 10 1).length +
        (⌊(10 : ℝ) / (1 * Real.sqrt 3 / 2)⌋).toNat) :=
  ⟨one_pos, C5_hexagonal_vs_grid_count 10 10 1 one_pos
    (by rw [one_mul]; exact le_trans sqrt_three_le_two (by norm_num))⟩

/-- Counterexample to C5 as stated: at width 1, height 10, spacing 1 the
hexagonal hypothesis height ≥ spacing·√3 holds, yet the hexagonal pattern
of `part_000` yields 0 points and the one of `placement.js` yields 6
(11 rows of alternating 1 and 0 columns), while the grid yields 10. -/
theorem C5_counterexample_narrow_bed :
    1 * Real.sqrt 3 ≤ 10 ∧
    (Part0.hexagonalPattern 1 10 1).length < (Part0.gridPattern 1 10 1).length ∧
    (Placement.hexagonalPattern 1 10 1).length < (Placement.gridPattern 1 10 1).length := by
  refine ⟨?_, ?_, ?_⟩
  · rw [one_mul]
    exact le_trans sqrt_three_le_two (by norm_num)
  · have hhex : Part0.hexagonalPattern 1 10 1 = [] := by
      simp only [Part0.hexagonalPattern]
      apply List.flatMap_eq_nil_iff.mpr
      intro row hrow
      have hc : (⌊(1 - 1 / 2 - ((row % 2 : ℕ) : ℝ) * (1 / 2)) / 1⌋).toNat = 0 := by
        rcases Nat.mod_two_eq_zero_or_one row with hpar | hpar <;> rw [hpar] <;>
          push_cast <;> norm_num
      rw [hc]
      simp
    rw [hhex, part0_grid_length]
    norm_num
  · have hR : ⌊(10 : ℝ) / (1 * Real.sqrt 3 / 2)⌋ = 11 := by
      have h2 : (0 : ℝ) < Real.sqrt 3 := by positivity
      have h1 : Real.sqrt 3 ^ 2 = 3 := Real.sq_sqrt (by norm_num)
      rw [show (10 : ℝ) / (1 * Real.sqrt 3 / 2) = 20 / Real.sqrt 3 by ring_nf]
      rw [Int.floor_eq_iff]
      constructor
      · push_cast
        rw [le_div_iff₀ h2]
        nlinarith
      · push_cast
        rw [div_lt_iff₀ h2]
        nlinarith
    have hhexP : (Placement.hexagonalPattern 1 10 1).length = 6 := by
      rw [placement_hex_length, hR]
      rw [show Int.toNat 11 = 11 from rfl]
      norm_num [List.range_succ]
    rw [hhexP, placement_grid_length]
    norm_num

/-! ## C6 -/

/-- C6 (amended): for the percentage fill method the returned sequence is a
prefix of the CONFLICT-FILTERED candidate order, of length
`min(⌊len · p/100⌋, filteredLen)` where `len` is the pre-filter candidate
count — the filter cap means the result can be shorter than `⌊len · p/100⌋`
(see the counterexample); and in the layered path `applyFillMethod` applies
the percentage to whatever list it receives (there the already-filtered
one). -/
theorem C6_percentage_fill (width height spacing radius : ℝ) (pattern : Pattern)
    (value : ℤ) (existingPlantGroups : List PlantGroup) (positions : List Point)
    (hv : 0 ≤ value) :
    Part0.placeWithAwareness width height spacing pattern Method.percentage value false radius
        existingPlantGroups =
      (Part0.filterAvailablePositions
          (if pattern = Pattern.hexagonal then Part0.hexagonalPattern width height spacing
           else Part0.gridPattern width height spacing) existingPlantGroups spacing).take
        (min ⌊(((if pattern = Pattern.hexagonal then Part0.hexagonalPattern width height spacing
                 else Part0.gridPattern width height spacing).length : ℝ) *
                ((value : ℝ) / 100))⌋
          ((Part0.filterAvailablePositions
              (if pattern = Pattern.hexagonal then Part0.hexagonalPattern width height spacing
               else Part0.gridPattern width height spacing) existingPlantGroups spacing).length :
            ℤ)).toNat ∧
    (Part0.placeWithAwareness width height spacing pattern Method.percentage value false radius
        existingPlantGroups).length =
      min ⌊(((if pattern = Pattern.hexagonal then Part0.hexagonalPattern width height spacing
              else Part0.gridPattern width height spacing).length : ℝ) *
             ((value : ℝ) / 100))⌋.toNat
        (Part0.filterAvailablePositions
          (if pattern = Pattern.hexagonal then Part0.hexagonalPattern width height spacing
           else Part0.gridPattern width height spacing) existingPlantGroups spacing).length ∧
    Part0.applyFillMethod positions Method.percentage value =
      positions.take ⌊((positions.length : ℝ) * ((value : ℝ) / 100))⌋.toNat := by
  have hc : ∀ n : ℕ, (0 : ℤ) ≤ ⌊((n : ℝ) * ((value : ℝ) / 100))⌋ := by
    intro n
    apply Int.floor_nonneg.mpr
    have : (0 : ℝ) ≤ (value : ℝ) := by exact_mod_cast hv
    positivity
  refine ⟨?_, ?_, ?_⟩
  · simp only [Part0.placeWithAwareness, Bool.false_eq_true, if_false]
    rw [jsSlice, if_neg]
    rw [not_lt]
    exact le_min (hc _) (Int.ofNat_nonneg _)
  · simp only [Part0.placeWithAwareness, Bool.false_eq_true, if_false]
    rw [jsSlice, if_neg]
    · rw [List.length_take]
      omega
    · rw [not_lt]
      exact le_min (hc _) (Int.ofNat_nonneg _)
  · simp only [Part0.applyFillMethod]
    rw [jsSlice, if_neg]
    rw [not_lt]
    exact hc _

/-- Witness for the amended C6 at a concrete input (2 × 1 bed, spacing 1,
grid, 100 %, no existing groups). -/
theorem C6_percentage_fill_witness :
    (0 : ℤ) ≤ 100 ∧
    (Part0.placeWithAwareness 2 1 1 Pattern.grid Method.percentage 100 false 0 [] =
      (Part0.filterAvailablePositions
          (if Pattern.grid = Pattern.hexagonal then Part0.hexagonalPattern 2 1 1
           else Part0.gridPattern 2 1 1) [] 1).take
        (min ⌊(((if Pattern.grid = Pattern.hexagonal then Part0.hexagonalPattern 2 1 1
                 else Part0.gridPattern 2 1 1).length : ℝ) * (((100 : ℤ) : ℝ) / 100))⌋
          ((Part0.filterAvailablePositions
              (if Pattern.grid = Pattern.hexagonal then Part0.hexagonalPattern 2 1 1
               else Part0.gridPattern 2 1 1) [] 1).length : ℤ)).toNat ∧
     (Part0.placeWithAwareness 2 1 1 Pattern.grid Method.percentage 100 false 0 []).length =
      min ⌊(((if Pattern.grid = Pattern.hexagonal then Part0.hexagonalPattern 2 1 1
              else Part0.gridPattern 2 1 1).length : ℝ) * (((100 : ℤ) : ℝ) / 100))⌋.toNat
        (Part0.filterAvailablePositions
          (if Pattern.grid = Pattern.hexagonal then Part0.hexagonalPattern 2 1 1
           else Part0.gridPattern 2 1 1) [] 1).length ∧
     Part0.applyFillMethod [] Method.percentage 100 =
      List.take ⌊((([] : List Point).length : ℝ) * (((100 : ℤ) : ℝ) / 100))⌋.toNat []) :=
  ⟨by norm_num, C6_percentage_fill 2 1 1 0 Pattern.grid 100 [] [] (by norm_num)⟩

/-- The 2 × 1, spacing-1 grid evaluates to its two concrete points. -/
lemma gridPattern_two_one : Part0.gridPattern 2 1 1 = [⟨-(1 / 2), 0⟩, ⟨1 / 2, 0⟩] := by
  simp only [Part0.gridPattern]
  norm_num [List.range_succ, show Int.toNat 2 = 2 from rfl]

/-- With an existing plant sitting on the first candidate, the conflict
filter keeps only the second. -/
lemma filter_two_one :
    Part0.filterAvailablePositions [⟨-(1 / 2), 0⟩, ⟨1 / 2, 0⟩] [⟨1, [⟨-(1 / 2), 0⟩]⟩] 1 =
      [⟨1 / 2, 0⟩] := by
  rw [Part0.filterAvailablePositions]
  simp only [List.filter_cons, List.filter_nil, decide_eq_true_eq, List.mem_singleton,
    List.mem_cons, List.not_mem_nil, or_false, forall_eq]
  norm_num

/-- Counterexample to C6 as stated: on a 2 × 1 bed with spacing 1 there are
2 candidates, so at p = 100 the claim demands `⌊2 · 100/100⌋ = 2` returned
points, but with one existing plant blocking a candidate the code returns
only 1 point. -/
theorem C6_counterexample_filter_shortfall :
    (Part0.gridPattern 2 1 1).length = 2 ∧
    (Part0.placeWithAwareness 2 1 1 Pattern.grid Method.percentage 100 false 0
      [⟨1, [⟨-(1 / 2), 0⟩]⟩]).length = 1 := by
  constructor
  · rw [gridPattern_two_one]
    rfl
  · simp only [Part0.placeWithAwareness, Bool.false_eq_true, if_false,
      if_neg (show ¬ Pattern.grid = Pattern.hexagonal by decide)]
    rw [gridPattern_two_one, filter_two_one]
    norm_num [jsSlice]

/-! ## C7 -/

/-- Distance from the origin of a point placed on a ring of radius `ρ ≥ 0`. -/
lemma dist_ring (θ ρ : ℝ) (hρ : 0 ≤ ρ) :
    Real.sqrt ((Real.cos θ * ρ) * (Real.cos θ * ρ) + (Real.sin θ * ρ) * (Real.sin θ * ρ)) = ρ := by
  have h : (Real.cos θ * ρ) * (Real.cos θ * ρ) + (Real.sin θ * ρ) * (Real.sin θ * ρ) = ρ ^ 2 := by
    have hpyth := Real.sin_sq_add_cos_sq θ
    nlinarith [hpyth]
  rw [h, Real.sqrt_sq hρ]

/-- A sub-ring radius interpolated strictly inside the annulus: nonnegative
and strictly below the outer radius. -/
lemma ring_radius_bound {radius b1 b2 : ℝ} (hr : 0 < radius) (hb0 : 0 ≤ b1) (hb : b1 < b2)
    {M : ℤ} (hM : 1 ≤ M) {k : ℕ} (hk : (k : ℤ) < M) :
    0 ≤ radius * b1 + (radius * b2 - radius * b1) / ((M : ℝ) + 1) * ((k : ℝ) + 1) ∧
    radius * b1 + (radius * b2 - radius * b1) / ((M : ℝ) + 1) * ((k : ℝ) + 1) < b2 * radius := by
  have hrw : 0 < radius * b2 - radius * b1 := by nlinarith
  have hM1 : (1 : ℝ) ≤ (M : ℝ) := by exact_mod_cast hM
  have hMk : (k : ℝ) + 1 ≤ (M : ℝ) := by
    have : (k : ℤ) + 1 ≤ M := hk
    exact_mod_cast this
  have hq : 0 < (radius * b2 - radius * b1) / ((M : ℝ) + 1) := div_pos hrw (by linarith)
  have hqe : (radius * b2 - radius * b1) / ((M : ℝ) + 1) * ((M : ℝ) + 1) =
      radius * b2 - radius * b1 := div_mul_cancel₀ _ (by linarith)
  have hinner : 0 ≤ radius * b1 := by positivity
  have hk0 : (0 : ℝ) ≤ (k : ℝ) := Nat.cast_nonneg k
  have hprod : (radius * b2 - radius * b1) / ((M : ℝ) + 1) * ((k : ℝ) + 1) ≤
      (radius * b2 - radius * b1) / ((M : ℝ) + 1) * (M : ℝ) :=
    mul_le_mul_of_nonneg_left hMk (le_of_lt hq)
  constructor
  · nlinarith [hq]
  · nlinarith [hq, hqe, hprod]

/-- Every point of the annulus generator `placeInCircularRegion` lies
strictly inside the outer radius of its region. -/
lemma placeInCircularRegion_lt {radius spacing : ℝ} {bounds : ℝ × ℝ} (hr : 0 < radius)
    (hb0 : 0 ≤ bounds.1) (hb : bounds.1 < bounds.2) :
    ∀ p ∈ Part0.placeInCircularRegion radius spacing bounds,
      Real.sqrt (p.x * p.x + p.y * p.y) < bounds.2 * radius := by
  intro p hp
  simp only [Part0.placeInCircularRegion] at hp
  obtain ⟨k, hk, hp⟩ := List.mem_flatMap.mp hp
  obtain ⟨i, hi, rfl⟩ := List.mem_map.mp hp
  rw [List.mem_range] at hk
  have hM : (1 : ℤ) ≤ max 1 ⌊(radius * bounds.2 - radius * bounds.1) / spacing⌋ :=
    le_max_left _ _
  have hkM : (k : ℤ) < max 1 ⌊(radius * bounds.2 - radius * bounds.1) / spacing⌋ :=
    Int.lt_toNat.mp hk
  have hbound := ring_radius_bound hr hb0 hb hM hkM
  dsimp only
  rw [dist_ring _ _ hbound.1]
  exact hbound.2

/-- Every point of the layered annulus generator
`placeInCircularLayerWithBounds` lies strictly inside the outer radius of
its region. -/
lemma placeInCircularLayerWithBounds_lt {radius spacing : ℝ} {pattern : Pattern}
    {method : Method} {value : ℤ} {layerIndex totalLayers : ℕ}
    {previousLayers : List PlantGroup} {bounds : ℝ × ℝ} (hr : 0 < radius)
    (hb0 : 0 ≤ bounds.1) (hb : bounds.1 < bounds.2) :
    ∀ p ∈ Part0.placeInCircularLayerWithBounds radius spacing pattern method value layerIndex
      totalLayers previousLayers bounds,
      Real.sqrt (p.x * p.x + p.y * p.y) < bounds.2 * radius := by
  intro p hp
  simp only [Part0.placeInCircularLayerWithBounds] at hp
  have hp1 := ite_fill_subset hp
  rw [Part0.filterByInterLayerSpacing] at hp1
  have hp2 := List.mem_of_mem_filter hp1
  obtain ⟨k, hk, hp3⟩ := List.mem_flatMap.mp hp2
  obtain ⟨i, hi, rfl⟩ := List.mem_map.mp hp3
  rw [List.mem_range] at hk
  have hM : (1 : ℤ) ≤ max 1 ⌊(radius * bounds.2 - radius * bounds.1) / spacing⌋ :=
    le_max_left _ _
  have hkM : (k : ℤ) < max 1 ⌊(radius * bounds.2 - radius * bounds.1) / spacing⌋ :=
    Int.lt_toNat.mp hk
  have hbound := ring_radius_bound hr hb0 hb hM hkM
  dsimp only
  rw [dist_ring _ _ hbound.1]
  exact hbound.2

/-- C7 (amended): `placeInCircle` keeps every point within
`radius - spacing/2` (that bound is enforced by its filter), but the
annulus generators do NOT satisfy that bound in general (see the
counterexample); what they do guarantee, for any region
`0 ≤ start < end ≤ 1`, radius > 0 and spacing > 0, is that every generated
point lies strictly inside the region's outer radius `end · radius`, and
hence within the bed radius. -/
theorem C7_circular_containment (radius spacing : ℝ) (pattern : Pattern) (method : Method)
    (value : ℤ) (layerIndex totalLayers : ℕ) (previousLayers : List PlantGroup)
    (bounds : ℝ × ℝ) (hr : 0 < radius) (hb0 : 0 ≤ bounds.1) (hb : bounds.1 < bounds.2)
    (hb2 : bounds.2 ≤ 1) :
    (∀ p ∈ Part0.placeInCircle radius spacing pattern,
      Real.sqrt (p.x * p.x + p.y * p.y) ≤ radius - spacing / 2) ∧
    (∀ p ∈ Part0.placeInCircularRegion radius spacing bounds,
      Real.sqrt (p.x * p.x + p.y * p.y) < bounds.2 * radius ∧
      Real.sqrt (p.x * p.x + p.y * p.y) ≤ radius) ∧
    (∀ p ∈ Part0.placeInCircularLayerWithBounds radius spacing pattern method value layerIndex
        totalLayers previousLayers bounds,
      Real.sqrt (p.x * p.x + p.y * p.y) < bounds.2 * radius ∧
      Real.sqrt (p.x * p.x + p.y * p.y) ≤ radius) := by
  have houter : bounds.2 * radius ≤ radius := by nlinarith
  refine ⟨part0_placeInCircle_le, fun p hp => ?_, fun p hp => ?_⟩
  · have h := placeInCircularRegion_lt hr hb0 hb p hp
    exact ⟨h, le_trans (le_of_lt h) houter⟩
  · have h := placeInCircularLayerWithBounds_lt hr hb0 hb p hp
    exact ⟨h, le_trans (le_of_lt h) houter⟩

/-- Witness for the amended C7 at radius 1, spacing 1, full region (0,1). -/
theorem C7_circular_containment_witness :
    (0 : ℝ) < 1 ∧
    ((∀ p ∈ Part0.placeInCircle 1 1 Pattern.grid,
      Real.sqrt (p.x * p.x + p.y * p.y) ≤ 1 - 1 / 2) ∧
     (∀ p ∈ Part0.placeInCircularRegion 1 1 ((0 : ℝ), (1 : ℝ)),
      Real.sqrt (p.x * p.x + p.y * p.y) < ((0 : ℝ), (1 : ℝ)).2 * 1 ∧
      Real.sqrt (p.x * p.x + p.y * p.y) ≤ 1) ∧
     (∀ p ∈ Part0.placeInCircularLayerWithBounds 1 1 Pattern.grid Method.auto 0 0 1 []
        ((0 : ℝ), (1 : ℝ)),
      Real.sqrt (p.x * p.x + p.y * p.y) < ((0 : ℝ), (1 : ℝ)).2 * 1 ∧
      Real.sqrt (p.x * p.x + p.y * p.y) ≤ 1)) :=
  ⟨one_pos, C7_circular_containment 1 1 Pattern.grid Method.auto 0 0 1 [] ((0 : ℝ), (1 : ℝ))
    one_pos le_rfl one_pos (le_refl 1)⟩

/-- Counterexample to C7 as stated: with radius 1, spacing 10 and the full
region (0,1), the annulus generator still emits the point (1/2, 0), whose
distance 1/2 exceeds radius − spacing/2 = −4. -/
theorem C7_counterexample_annulus_margin :
    (⟨1 / 2, 0⟩ : Point) ∈ Part0.placeInCircularRegion 1 10 ((0 : ℝ), (1 : ℝ)) ∧
    ¬ (Real.sqrt ((1 / 2 : ℝ) * (1 / 2) + 0 * 0) ≤ 1 - 10 / 2) := by
  constructor
  · simp only [Part0.placeInCircularRegion]
    rw [List.mem_flatMap]
    have hM : max 1 ⌊((1 : ℝ) * 1 - 1 * 0) / 10⌋ = 1 := by norm_num
    refine ⟨0, ?_, ?_⟩
    · rw [List.mem_range, hM]
      norm_num
    · rw [List.mem_map]
      have hρ : (1 : ℝ) * 0 + ((1 : ℝ) * 1 - 1 * 0) / ((max 1 ⌊((1 : ℝ) * 1 - 1 * 0) / 10⌋ : ℤ) + 1) *
          ((0 : ℕ) + 1) = 1 / 2 := by
        rw [hM]
        norm_num
      have hπ : ⌊2 * Real.pi * ((1 : ℝ) * 0 + ((1 : ℝ) * 1 - 1 * 0) /
          ((max 1 ⌊((1 : ℝ) * 1 - 1 * 0) / 10⌋ : ℤ) + 1) * ((0 : ℕ) + 1)) / 10⌋ = 0 := by
        rw [hρ]
        rw [Int.floor_eq_zero_iff]
        constructor
        · positivity
        · have := Real.pi_lt_315
          norm_num
          nlinarith [this]
      refine ⟨0, ?_, ?_⟩
      · rw [List.mem_range]
        norm_num [hπ]
      · rw [hρ]
        have hπ2 : ⌊2 * Real.pi * (1 / 2 : ℝ) / 10⌋ = 0 := by
          rw [Int.floor_eq_zero_iff]
          constructor
          · positivity
          · have := Real.pi_lt_315
            norm_num
            nlinarith [this]
        rw [hπ2]
        norm_num
  · rw [show (1 / 2 : ℝ) * (1 / 2) + 0 * 0 = (1 / 2) ^ 2 by norm_num,
      Real.sqrt_sq (by norm_num : (0 : ℝ) ≤ 1 / 2)]
    norm_num

/-! ## C8 -/

/-- A non-positive real has floor-count zero. -/
lemma toNat_floor_nonpos {x : ℝ} (hx : x ≤ 0) : (⌊x⌋).toNat = 0 := by
  have h1 : ⌊x⌋ ≤ ⌊(0 : ℝ)⌋ := Int.floor_mono hx
  rw [Int.floor_zero] at h1
  omega

/-- A generator whose row loop runs zero times yields no points. -/
lemma flatMap_range_zero {c : ℕ → List Point} : (List.range 0).flatMap c = [] := rfl

/-- C8 (amended): for spacing < 0 and nonnegative bed dimensions every
pattern generator returns the empty sequence, and the fill resolver is
total (an empty candidate list yields an empty result, never a failure).
At spacing = 0, however, the claim fails differently: with height > 0 the
JS row loop bound is `Math.floor(height/0) = Infinity`, so the generators
do not terminate (modelled by the `...Run` wrappers returning `none`);
only with height = 0 do they return the empty sequence. -/
theorem C8_degenerate_spacing (width height spacing : ℝ) (method : Method) (value : ℤ)
    (hw : 0 ≤ width) (hh : 0 ≤ height) :
    (spacing < 0 →
      Part0.gridPattern width height spacing = [] ∧
      Part0.hexagonalPattern width height spacing = [] ∧
      Placement.gridPattern width height spacing = [] ∧
      Placement.hexagonalPattern width height spacing = []) ∧
    (0 < height →
      Part0.gridPatternRun width height 0 = none ∧
      Part0.hexagonalPatternRun width height 0 = none ∧
      Placement.gridPatternRun width height 0 = none) ∧
    (height = 0 →
      Part0.gridPatternRun width height 0 = some [] ∧
      Part0.hexagonalPatternRun width height 0 = some []) ∧
    Part0.applyFillMethod [] method value = [] := by
  have h3 : (0 : ℝ) < Real.sqrt 3 := lt_of_lt_of_le one_pos one_le_sqrt_three
  refine ⟨fun hs => ?_, fun hpos => ?_, fun hzero => ?_, ?_⟩
  · have hgrid : (⌊height / spacing⌋).toNat = 0 :=
      toNat_floor_nonpos (div_nonpos_of_nonneg_of_nonpos hh hs.le)
    have hhex : (⌊height / (spacing * Real.sqrt 3 / 2)⌋).toNat = 0 :=
      toNat_floor_nonpos (div_nonpos_of_nonneg_of_nonpos hh (by nlinarith))
    refine ⟨?_, ?_, ?_, ?_⟩
    · simp only [Part0.gridPattern]
      rw [hgrid, flatMap_range_zero]
    · simp only [Part0.hexagonalPattern]
      rw [hhex, flatMap_range_zero]
    · simp only [Placement.gridPattern]
      rw [hgrid, flatMap_range_zero]
    · simp only [Placement.hexagonalPattern]
      rw [hhex, flatMap_range_zero]
  · refine ⟨?_, ?_, ?_⟩ <;>
      simp [Part0.gridPatternRun, Part0.hexagonalPatternRun, Placement.gridPatternRun, hpos]
  · subst hzero
    have hgrid : (⌊(0 : ℝ) / (0 : ℝ)⌋).toNat = 0 := toNat_floor_nonpos (by norm_num)
    have hhex : (⌊(0 : ℝ) / ((0 : ℝ) * Real.sqrt 3 / 2)⌋).toNat = 0 :=
      toNat_floor_nonpos (by norm_num)
    constructor
    · rw [Part0.gridPatternRun, if_neg (by norm_num)]
      simp only [Part0.gridPattern]
      rw [hgrid, flatMap_range_zero]
    · rw [Part0.hexagonalPatternRun, if_neg (by norm_num)]
      simp only [Part0.hexagonalPattern]
      rw [hhex, flatMap_range_zero]
  · cases method <;> simp [Part0.applyFillMethod, jsSlice]

/-- Witness for the amended C8 at width 1, height 1 (and the divergence
case at height 1, the empty case vacuous there). -/
theorem C8_degenerate_spacing_witness :
    (0 : ℝ) ≤ 1 ∧
    (((-1 : ℝ) < 0 →
      Part0.gridPattern 1 1 (-1) = [] ∧
      Part0.hexagonalPattern 1 1 (-1) = [] ∧
      Placement.gridPattern 1 1 (-1) = [] ∧
      Placement.hexagonalPattern 1 1 (-1) = []) ∧
     ((0 : ℝ) < 1 →
      Part0.gridPatternRun 1 1 0 = none ∧
      Part0.hexagonalPatternRun 1 1 0 = none ∧
      Placement.gridPatternRun 1 1 0 = none) ∧
     ((1 : ℝ) = 0 →
      Part0.gridPatternRun 1 1 0 = some [] ∧
      Part0.hexagonalPatternRun 1 1 0 = some []) ∧
     Part0.applyFillMethod [] Method.auto 0 = []) :=
  ⟨by norm_num, C8_degenerate_spacing 1 1 (-1) Method.auto 0 (by norm_num) (by norm_num)⟩

/-- Counterexample to C8 as stated: with spacing −1 ≤ 0 and the (admittedly
degenerate) dimensions −1 × −1, gridPattern returns a non-empty sequence
(`⌊(-1)/(-1)⌋ = 1` row and column), not the empty one. -/
theorem C8_counterexample_negative_spacing :
    (-1 : ℝ) ≤ 0 ∧ Part0.gridPattern (-1) (-1) (-1) ≠ [] := by
  constructor
  · norm_num
  · have h : Part0.gridPattern (-1) (-1) (-1) = [⟨0, 0⟩] := by
      simp only [Part0.gridPattern]
      norm_num [List.range_succ, show Int.toNat 1 = 1 from rfl]
    rw [h]
    simp

/-! ## C9 -/

/-- C9 (amended): `placeSpecificCount` returns the empty sequence for
count = 0, but for a NEGATIVE count the JS `slice(0, count)` end index
counts from the end of the array: the code returns the first
`len + count` candidates (empty only once `count ≤ -len`), not the empty
sequence. -/
theorem C9_nonpositive_count (width height spacing radius : ℝ) (pattern : Pattern) (n : ℤ)
    (hn : n < 0) :
    Part0.placeSpecificCount width height spacing 0 pattern false radius = [] ∧
    Part0.placeSpecificCount width height spacing n pattern false radius =
      (if pattern = Pattern.hexagonal then Part0.hexagonalPattern width height spacing
       else Part0.gridPattern width height spacing).take
        (((if pattern = Pattern.hexagonal then Part0.hexagonalPattern width height spacing
           else Part0.gridPattern width height spacing).length : ℤ) + n).toNat := by
  constructor
  · simp only [Part0.placeSpecificCount, Bool.false_eq_true, if_false]
    rw [min_eq_left (Int.ofNat_nonneg _), jsSlice, if_neg (lt_irrefl 0)]
    simp
  · simp only [Part0.placeSpecificCount, Bool.false_eq_true, if_false]
    rw [min_eq_left (le_trans hn.le (Int.ofNat_nonneg _)), jsSlice, if_pos hn]

/-- Witness for the amended C9 at the 2 × 1 bed with count −1. -/
theorem C9_nonpositive_count_witness :
    (-1 : ℤ) < 0 ∧
    (Part0.placeSpecificCount 2 1 1 0 Pattern.grid false 0 = [] ∧
     Part0.placeSpecificCount 2 1 1 (-1) Pattern.grid false 0 =
      (if Pattern.grid = Pattern.hexagonal then Part0.hexagonalPattern 2 1 1
       else Part0.gridPattern 2 1 1).take
        (((if Pattern.grid = Pattern.hexagonal then Part0.hexagonalPattern 2 1 1
           else Part0.gridPattern 2 1 1).length : ℤ) + (-1)).toNat) :=
  ⟨by norm_num, C9_nonpositive_count 2 1 1 0 Pattern.grid (-1) (by norm_num)⟩

/-- Counterexample to C9 as stated: on the 2 × 1 bed (2 candidates) the
count −1 ≤ 0 returns the first candidate, not the empty sequence. -/
theorem C9_counterexample_negative_count :
    (-1 : ℤ) ≤ 0 ∧ Part0.placeSpecificCount 2 1 1 (-1) Pattern.grid false 0 ≠ [] := by
  refine ⟨by norm_num, ?_⟩
  have h : Part0.placeSpecificCount 2 1 1 (-1) Pattern.grid false 0 = [⟨-(1 / 2), 0⟩] := by
    simp only [Part0.placeSpecificCount, Bool.false_eq_true, if_false,
      if_neg (show ¬ Pattern.grid = Pattern.hexagonal by decide)]
    rw [gridPattern_two_one]
    norm_num [jsSlice]
  rw [h]
  simp

/-! ## C10 -/

/-- C10: for a rectangular bed with width ≥ spacing > 0 and any integer
numRows ≥ 1, `placeInRows` returns exactly numRows × ⌊width/spacing⌋
points — the requested row count is taken literally, never capped by the
bed height; the rows (first column shown as a member for each row index)
sit at pitch height/numRows, which falls below `spacing` exactly when
numRows · spacing exceeds the height. -/
theorem C10_placeInRows_row_count (width height spacing radius : ℝ) (pattern : Pattern)
    (numRows : ℤ) (hs : 0 < spacing) (hws : spacing ≤ width) (hn : 1 ≤ numRows) :
    (Part0.placeInRows width height spacing numRows pattern false radius).length =
      numRows.toNat * (⌊width / spacing⌋).toNat ∧
    (∀ r : ℕ, r < numRows.toNat →
      (⟨-width / 2 + spacing / 2,
        -height / 2 + height / (numRows : ℝ) / 2 + (r : ℝ) * (height / (numRows : ℝ))⟩ : Point) ∈
        Part0.placeInRows width height spacing numRows pattern false radius) ∧
    (height < (numRows : ℝ) * spacing → height / (numRows : ℝ) < spacing) := by
  have hcols : (0 : ℤ) < ⌊width / spacing⌋ := by
    have h1 : (1 : ℝ) ≤ width / spacing := (one_le_div hs).mpr hws
    have := Int.le_floor.mpr (by exact_mod_cast h1 : ((1 : ℤ) : ℝ) ≤ width / spacing)
    omega
  have hnR : (0 : ℝ) < (numRows : ℝ) := by exact_mod_cast lt_of_lt_of_le one_pos hn
  refine ⟨?_, ?_, ?_⟩
  · simp only [Part0.placeInRows, Bool.false_eq_true, if_false]
    exact length_flatMap_range_const
  · intro r hr
    simp only [Part0.placeInRows, Bool.false_eq_true, if_false]
    rw [List.mem_flatMap]
    refine ⟨r, List.mem_range.mpr hr, ?_⟩
    rw [List.mem_map]
    refine ⟨0, List.mem_range.mpr (by omega), ?_⟩
    simp
  · intro h
    rw [div_lt_iff hnR]
    linarith

/-- Witness for C10 at the 2 × 1 bed, spacing 1, three rows. -/
theorem C10_placeInRows_row_count_witness :
    (0 : ℝ) < 1 ∧
    ((Part0.placeInRows 2 1 1 3 Pattern.grid false 0).length =
      (3 : ℤ).toNat * (⌊(2 : ℝ) / 1⌋).toNat ∧
     (∀ r : ℕ, r < (3 : ℤ).toNat →
      (⟨-2 / 2 + 1 / 2,
        -1 / 2 + 1 / ((3 : ℤ) : ℝ) / 2 + (r : ℝ) * (1 / ((3 : ℤ) : ℝ))⟩ : Point) ∈
        Part0.placeInRows 2 1 1 3 Pattern.grid false 0) ∧
     ((1 : ℝ) < ((3 : ℤ) : ℝ) * 1 → (1 : ℝ) / ((3 : ℤ) : ℝ) < 1)) :=
  ⟨one_pos, C10_placeInRows_row_count 2 1 1 0 Pattern.grid 3 one_pos (by norm_num) (by norm_num)⟩
